import Mathlib

/-!
Shallow embedding of the Validator Registry smart contract
(`validatorSC`, file `validator.go` of the repository) and proofs of the
specification claims about it.

Conventions of the embedding:
* byte strings are `List Nat` (each entry one byte);
* Go `big.Int` values are Lean `Int`; Go `uint64`/`uint32` are `Nat`, with an
  explicit `% 2 ^ 64` where Go performs wrapping conversions or subtraction;
* the host environment interface (`vm.SystemEI`) is split into an immutable
  oracle part (`World`: current nonce/epoch, the Staking Registry, the
  signature verifier, the marshaler) and a mutable part (`EEIState`: contract
  storage, finish stream, return messages, transfers, issued registry
  commands, remaining gas);
* `executeOnDestContext` sub-calls are recorded on a command log and answered
  by the deterministic oracle `World.registry`;
* host transfers are modelled as always succeeding (a failing transfer is a
  host-level event outside the contract).
-/

namespace ValidatorSC

/-- Byte strings of the contract (addresses, BLS keys, raw storage values). -/
abbrev Bytes := List Nat

/-- `vmcommon.ReturnCode` restricted to the codes the contract produces or
inspects. -/
inductive ReturnCode where
  | Ok
  | UserError
  | OutOfGas
  | OutOfFunds
  deriving DecidableEq, Repr

/-- Per-key result byte `ok` written on the finish stream. -/
def okCode : Nat := 0

/-- Per-key result byte `invalidKey` written on the finish stream. -/
def invalidKeyCode : Nat := 1

/-- Per-key result byte `failed` written on the finish stream. -/
def failedCode : Nat := 2

/-- Per-key result byte `waiting` written on the finish stream. -/
def waitingCode : Nat := 3

/-- Outcome of a sub-call into the Staking Registry
(`ExecuteOnDestContext`): the Go pair `(*vmcommon.VMOutput, error)`. -/
structure RegistryResponse where
  isError : Bool
  errMsg : String
  retCode : ReturnCode
  retData : List Bytes
  deriving DecidableEq, Repr

/-- The fields of the Staking Registry's per-key record that the validator
contract reads through `getStakedData` (a helper of this repository that is
not part of the sources at hand; the fields used are `Staked`, `Waiting` and
`UnStakedNonce`). -/
structure StakedData where
  staked : Bool
  waiting : Bool
  unStakedNonce : Nat
  deriving DecidableEq, Repr

/-- One pending-unbond entry (`UnstakedValue` proto message). -/
structure UnstakedValue where
  unstakedNonce : Nat
  unstakedValue : Int
  deriving DecidableEq, Repr

/-- The per-owner registration record (`ValidatorDataV2` proto message). -/
structure ValidatorDataV2 where
  rewardAddress : Bytes
  totalStakeValue : Int
  lockedStake : Int
  totalUnstaked : Int
  maxStakePerNode : Int
  epoch : Nat
  numRegistered : Nat
  blsPubKeys : List Bytes
  unstakedInfo : List UnstakedValue
  deriving DecidableEq, Repr

/-- The zeroed record a first handler touch creates lazily. -/
def emptyValidatorData : ValidatorDataV2 :=
  { rewardAddress := []
    totalStakeValue := 0
    lockedStake := 0
    totalUnstaked := 0
    maxStakePerNode := 0
    epoch := 0
    numRegistered := 0
    blsPubKeys := []
    unstakedInfo := [] }

/-- `ValidatorConfig`: the five process-wide scalars. -/
structure ValidatorConfig where
  totalSupply : Int
  minStakeValue : Int
  nodePrice : Int
  minStep : Int
  unJailPrice : Int
  deriving DecidableEq, Repr

/-- The gas-cost table entries (`MetaChainSystemSCsCost`) the contract uses. -/
structure GasCost where
  stake : Nat
  unStake : Nat
  unBond : Nat
  claim : Nat
  get : Nat
  changeRewardAddress : Nat
  unJail : Nat
  unStakeTokens : Nat
  unBondTokens : Nat
  deriving DecidableEq, Repr

/-- The immutable fields of the `validatorSC` structure that the handlers
read (configuration at construction plus the three epoch feature flags in
their state at the time of the call). -/
structure SCParams where
  unBondPeriod : Nat
  baseConfig : ValidatorConfig
  validatorSCAddress : Bytes
  endOfEpochAddress : Bytes
  walletAddressLen : Nat
  minUnstakeTokensValue : Int
  flagEnableStaking : Bool
  flagEnableTopUp : Bool
  flagDoubleKey : Bool
  gasCost : GasCost

/-- The oracle part of the host environment: chain position, Staking Registry
answers (deterministic per command string), signature verification, the
classification of smart-contract addresses, the marshaler and the byte
encodings used by raw storage reads, and the `setConfig` argument decoding. -/
structure World where
  currentNonce : Nat
  currentEpoch : Nat
  registry : String → RegistryResponse
  stakedData : Bytes → Option StakedData
  sigVerify : Bytes → Bytes → Bytes → Bool
  isSCAddress : Bytes → Bool
  marshal : ValidatorDataV2 → Bytes
  intBytes : Int → Bytes
  decodeConfig : List Bytes → Option ValidatorConfig

/-- One value transfer ordered by the contract:
`(destination, sender, value)`. -/
structure TransferEntry where
  destination : Bytes
  sender : Bytes
  value : Int
  deriving DecidableEq, Repr

/-- The mutable part of the host environment as seen by one invocation:
contract storage (registration records keyed by owner address, plus the
singleton keys), the finish stream, the return messages, the ordered
transfers, the log of commands sent to the Staking Registry, and the
remaining gas. -/
structure EEIState where
  records : Bytes → Option ValidatorDataV2
  unJailFunds : Int
  pauseStorage : Bytes
  ownerStorage : Option Bytes
  storedConfig : Option ValidatorConfig
  finish : List Bytes
  messages : List String
  transfers : List TransferEntry
  commands : List String
  gasLeft : Nat

/-- `vmcommon.ContractCallInput` restricted to the fields the contract reads. -/
structure ContractCallInput where
  function : String
  callerAddr : Bytes
  recipientAddr : Bytes
  callValue : Int
  arguments : List Bytes
  deriving DecidableEq, Repr

/-! ### Small host helpers -/

/-- `big.NewInt(0).SetBytes(b)` for a non-negative big-endian byte string. -/
def bytesToNat (b : Bytes) : Nat :=
  b.foldl (fun acc x => acc * 256 + x % 256) 0

/-- `big.NewInt(0).SetBytes(b).Uint64()`: byte-string decoding followed by the
Go truncation to `uint64`. -/
def bytesToUint64 (b : Bytes) : Nat :=
  bytesToNat b % 2 ^ 64

/-- One hexadecimal digit character (`0`-`9`, `a`-`f`). -/
def hexDigitChar (n : Nat) : Char :=
  if n < 10 then Char.ofNat (48 + n) else Char.ofNat (87 + n)

/-- `hex.EncodeToString` on a byte string. -/
def hexEncode (b : Bytes) : String :=
  String.join (b.map fun x =>
    String.mk [hexDigitChar (x % 256 / 16), hexDigitChar (x % 16)])

/-- The byte string of an ASCII storage key such as `"unStakeUnBondPause"`. -/
def strBytes (s : String) : Bytes :=
  s.toList.map Char.toNat

/-- `eei.AddReturnMessage`. -/
def addReturnMessage (s : EEIState) (m : String) : EEIState :=
  { s with messages := s.messages ++ [m] }

/-- `eei.Finish`. -/
def doFinish (s : EEIState) (b : Bytes) : EEIState :=
  { s with finish := s.finish ++ [b] }

/-- `eei.Finish(blsKey); eei.Finish([]byte{code})` — the per-key reporting
idiom. -/
def finishKeyCode (s : EEIState) (key : Bytes) (code : Nat) : EEIState :=
  doFinish (doFinish s key) [code]

/-- `eei.UseGas`: `none` models the `error` return on insufficient gas. -/
def useGas (amount : Nat) (s : EEIState) : Option EEIState :=
  if s.gasLeft < amount then none
  else some { s with gasLeft := s.gasLeft - amount }

/-- `eei.Transfer(destination, sender, value, nil, 0)`, modelled as always
succeeding. -/
def doTransfer (s : EEIState) (destination sender : Bytes) (value : Int) :
    EEIState :=
  { s with transfers := s.transfers ++ [⟨destination, sender, value⟩] }

/-- `executeOnStakingSC`: log the command and answer it from the oracle. -/
def executeOnStakingSC (w : World) (s : EEIState) (cmd : String) :
    EEIState × RegistryResponse :=
  ({ s with commands := s.commands ++ [cmd] }, w.registry cmd)

/-- `eei.SetStorage(addr, v)` on a registration key. -/
def setRecord (s : EEIState) (addr : Bytes) (d : Option ValidatorDataV2) :
    EEIState :=
  { s with records := fun a => if a = addr then d else s.records a }

/-! ### Helpers of the contract that are not part of the sources at hand -/

/-- Modelled from the spec: `getOrCreateRegistrationData` loads the caller's
persisted `ValidatorData` via host storage and the marshaler, creating a
zeroed record lazily when none is stored (the function itself is not among
the source files; unmarshal errors are host events and are not modelled). -/
def getOrCreateRegistrationData (s : EEIState) (addr : Bytes) :
    ValidatorDataV2 :=
  (s.records addr).getD emptyValidatorData

/-- Modelled from the spec: `saveRegistrationData` marshals the record and
stores it under the owner's address key (the function itself is not among the
source files; marshal errors are host events and are not modelled). -/
def saveRegistrationData (s : EEIState) (addr : Bytes) (d : ValidatorDataV2) :
    EEIState :=
  setRecord s addr (some d)

/-- Modelled from the spec: `verifyBLSPublicKeys` checks that every argument
key belongs to the caller, i.e. appears among the record's `BlsPubKeys`
(the function itself is not among the source files). -/
def verifyBLSPublicKeys (d : ValidatorDataV2) (keys : List Bytes) : Bool :=
  keys.all fun k => k ∈ d.blsPubKeys

/-- Modelled from the spec: `getConfig` resolves the per-epoch configuration —
the configuration stored by `setConfig` when present, else the base
configuration derived at construction (the function itself is not among the
source files). -/
def getConfig (p : SCParams) (s : EEIState) : ValidatorConfig :=
  s.storedConfig.getD p.baseConfig

/-- Modelled from the spec: `isNumArgsCorrectToStake` checks the stake
argument arity — at least `1 + 2·maxNodesToRun` arguments (the function
itself is not among the source files). -/
def isNumArgsCorrectToStake (args : List Bytes) : Bool :=
  bytesToUint64 (args.headD []) * 2 + 1 ≤ args.length

/-- Modelled from the spec: `getStakedData` fetches the Staking Registry
status of a key; `none` models the error return (the function itself is not
among the source files). -/
def getStakedData (w : World) (blsKey : Bytes) : Option StakedData :=
  w.stakedData blsKey

/-! ### Message constants (those compared against come from the source) -/

/-- The pause message of the `unStake`/`unBond` family (source text). -/
def pausedMessage : String :=
  "unStake/unBond is paused as not enough total staked in protocol"

/-- `vm.InsufficientGasLimit`. -/
def insufficientGasLimit : String := "insufficient gas limit"

/-- `vm.TransactionValueMustBeZero`. -/
def transactionValueMustBeZero : String := "transaction value must be zero"

/-- The message of `basicCheckForUnStakeUnBond` for an unregistered caller
(source text). -/
def notRegisteredMessage : String :=
  "key is not registered, validator operation is not possible"

/-- `vm.ErrKeyAlreadyRegistered.Error()`. -/
def keyAlreadyRegisteredMsg : String := "bls key already registered"

/-- `vm.ErrBLSPublicKeyMissmatch.Error()` (the text of the error returned by
`verifyBLSPublicKeys`). -/
def blsKeyMismatchMsg : String := "mismatch between bls public keys"

/-! ### Pause / unjail-funds singletons -/

/-- `pauseUnStakeUnBond`. -/
def pauseUnStakeUnBond (p : SCParams) (s : EEIState)
    (a : ContractCallInput) : EEIState × ReturnCode :=
  if ¬ p.flagEnableTopUp then
    (addReturnMessage s "invalid method to call", .UserError)
  else if ¬ (a.callerAddr = p.endOfEpochAddress) then
    (addReturnMessage s "only end of epoch address can call", .UserError)
  else
    ({ s with pauseStorage := [1] }, .Ok)

/-- `unPauseStakeUnBond`. -/
def unPauseStakeUnBond (p : SCParams) (s : EEIState)
    (a : ContractCallInput) : EEIState × ReturnCode :=
  if ¬ p.flagEnableTopUp then
    (addReturnMessage s "invalid method to call", .UserError)
  else if ¬ (a.callerAddr = p.endOfEpochAddress) then
    (addReturnMessage s "only end of epoch address can call", .UserError)
  else
    ({ s with pauseStorage := [0] }, .Ok)

/-- `isUnStakeUnBondPaused`. -/
def isUnStakeUnBondPaused (s : EEIState) : Bool :=
  match s.pauseStorage with
  | [] => false
  | b :: _ => b = 1

/-- `addToUnJailFunds`. -/
def addToUnJailFunds (s : EEIState) (value : Int) : EEIState :=
  { s with unJailFunds := s.unJailFunds + value }

/-- `init` (the deployment entry point). -/
def init (s : EEIState) (a : ContractCallInput) : EEIState × ReturnCode :=
  match s.ownerStorage with
  | some _ =>
      (addReturnMessage s "smart contract was already initialized", .UserError)
  | none => ({ s with ownerStorage := some a.callerAddr }, .Ok)

/-- `vmcommon.ReturnCode.String()`. -/
def ReturnCode.text : ReturnCode → String
  | .Ok => "ok"
  | .UserError => "user error"
  | .OutOfGas => "out of gas"
  | .OutOfFunds => "out of funds"

/-! ### UnJail -/

/-- The per-key loop of `unJailV1`. -/
def unJailLoopV1 (w : World) : List Bytes → EEIState → EEIState
  | [], s => s
  | k :: rest, s =>
    let r := executeOnStakingSC w s ("unJail@" ++ hexEncode k)
    if r.2.isError then
      unJailLoopV1 w rest (finishKeyCode (addReturnMessage r.1 r.2.errMsg) k failedCode)
    else if ¬ (r.2.retCode = .Ok) then
      unJailLoopV1 w rest (finishKeyCode r.1 k failedCode)
    else unJailLoopV1 w rest r.1

/-- `unJailV1` (pre-staking era unJail: no refunds). -/
def unJailV1 (p : SCParams) (w : World) (s : EEIState)
    (a : ContractCallInput) : EEIState × ReturnCode :=
  if a.arguments = [] then
    (addReturnMessage s "invalid number of arguments: expected min 1, got 0", .UserError)
  else
    let cfg := getConfig p s
    let totalUnJailPrice := cfg.unJailPrice * a.arguments.length
    if ¬ (totalUnJailPrice = a.callValue) then
      (addReturnMessage s "insufficient funds sent for unJail", .UserError)
    else match useGas (p.gasCost.unJail * a.arguments.length) s with
    | none => (addReturnMessage s insufficientGasLimit, .OutOfGas)
    | some s =>
      let d := getOrCreateRegistrationData s a.callerAddr
      if ¬ verifyBLSPublicKeys d a.arguments then
        (addReturnMessage s
          ("could not get all blsKeys from registration data: error " ++ blsKeyMismatchMsg),
         .UserError)
      else (unJailLoopV1 w a.arguments s, .Ok)

/-- The per-key loop of `unJail` (V2): accumulates `transferBack`. -/
def unJailLoopV2 (w : World) (price : Int) :
    List Bytes → EEIState → Int → EEIState × Int
  | [], s, transferBack => (s, transferBack)
  | k :: rest, s, transferBack =>
    let r := executeOnStakingSC w s ("unJail@" ++ hexEncode k)
    if r.2.isError ∨ ¬ (r.2.retCode = .Ok) then
      unJailLoopV2 w price rest (finishKeyCode r.1 k failedCode) (transferBack + price)
    else unJailLoopV2 w price rest r.1 transferBack

/-- `unJail` (V2 when the staking flag is set, else `unJailV1`). -/
def unJail (p : SCParams) (w : World) (s : EEIState)
    (a : ContractCallInput) : EEIState × ReturnCode :=
  if ¬ p.flagEnableStaking then unJailV1 p w s a
  else if a.arguments = [] then
    (addReturnMessage s "invalid number of arguments: expected at least 1", .UserError)
  else
    let cfg := getConfig p s
    let totalUnJailPrice := cfg.unJailPrice * a.arguments.length
    if ¬ (totalUnJailPrice = a.callValue) then
      (addReturnMessage s "wanted exact unjail price * numNodes", .UserError)
    else match useGas (p.gasCost.unJail * a.arguments.length) s with
    | none => (addReturnMessage s insufficientGasLimit, .OutOfGas)
    | some s =>
      let d := getOrCreateRegistrationData s a.callerAddr
      if ¬ verifyBLSPublicKeys d a.arguments then
        (addReturnMessage s
          ("cannot get all blsKeys from registration data: " ++ blsKeyMismatchMsg),
         .UserError)
      else
        let r := unJailLoopV2 w cfg.unJailPrice a.arguments s 0
        let transferBack := r.2
        let s :=
          if 0 < transferBack then
            doTransfer r.1 a.callerAddr a.recipientAddr transferBack
          else r.1
        (addToUnJailFunds s (a.callValue - transferBack), .Ok)

/-! ### Claim -/

/-- `claim` (pre-top-up only). -/
def claim (p : SCParams) (s : EEIState) (a : ContractCallInput) :
    EEIState × ReturnCode :=
  if p.flagEnableTopUp then
    (addReturnMessage s "claim function is disabled", .UserError)
  else if ¬ (a.callValue = 0) then
    (addReturnMessage s transactionValueMustBeZero, .UserError)
  else
    let d := getOrCreateRegistrationData s a.callerAddr
    if d.rewardAddress = [] then
      (addReturnMessage s "key is not registered, claim is not possible", .UserError)
    else match useGas p.gasCost.claim s with
    | none => (addReturnMessage s insufficientGasLimit, .OutOfGas)
    | some s =>
      let claimable := d.totalStakeValue - d.lockedStake
      if claimable ≤ 0 then (s, .Ok)
      else
        let d := { d with totalStakeValue := d.lockedStake }
        let s := saveRegistrationData s a.callerAddr d
        (doTransfer s a.callerAddr a.recipientAddr claimable, .Ok)

/-! ### UnStake family -/

/-- `processUnStakeValue`: move the checked amount from `TotalStakeValue`
into a fresh `UnstakedInfo` entry stamped with the current nonce. -/
def processUnStakeValue (p : SCParams) (w : World) (s : EEIState)
    (d : ValidatorDataV2) (unStakeValue : Int) :
    EEIState × Except ReturnCode ValidatorDataV2 :=
  let unstakeValueIsOk :=
    p.minUnstakeTokensValue ≤ unStakeValue ∨ unStakeValue = d.totalStakeValue
  if ¬ unstakeValueIsOk then
    (addReturnMessage s
      ("can not unstake the provided value either because is under the minimum threshold or " ++
       "is not the value left to be unStaked"),
     .error .UserError)
  else if d.totalStakeValue < unStakeValue then
    (addReturnMessage s
      ("can not unstake a bigger value than the possible allowed value which is " ++
       toString d.totalStakeValue),
     .error .UserError)
  else
    (s, .ok
      { d with
        totalStakeValue := d.totalStakeValue - unStakeValue
        totalUnstaked := d.totalUnstaked + unStakeValue
        unstakedInfo := d.unstakedInfo ++ [⟨w.currentNonce, unStakeValue⟩] })

/-- `basicCheckForUnStakeUnBond` (token-level unstake/unbond preflight). -/
def basicCheckForUnStakeUnBond (p : SCParams) (s : EEIState)
    (a : ContractCallInput) : EEIState × Except ReturnCode ValidatorDataV2 :=
  if ¬ p.flagEnableTopUp then
    (addReturnMessage s "invalid method to call", .error .UserError)
  else if ¬ (a.callValue = 0) then
    (addReturnMessage s transactionValueMustBeZero, .error .UserError)
  else
    let d := getOrCreateRegistrationData s a.callerAddr
    if d.rewardAddress = [] then
      (addReturnMessage s notRegisteredMessage, .error .UserError)
    else (s, .ok d)

/-- `unStakeTokens`. -/
def unStakeTokens (p : SCParams) (w : World) (s : EEIState)
    (a : ContractCallInput) : EEIState × ReturnCode :=
  match basicCheckForUnStakeUnBond p s a with
  | (s, .error rc) => (s, rc)
  | (s, .ok d) =>
    if isUnStakeUnBondPaused s then
      (addReturnMessage s pausedMessage, .UserError)
    else match useGas p.gasCost.unStakeTokens s with
    | none => (addReturnMessage s insufficientGasLimit, .OutOfGas)
    | some s =>
      if ¬ (a.arguments.length = 1) then
        (addReturnMessage s "should have specified one argument containing the unstake value",
         .UserError)
      else
        let unStakeValue : Int := bytesToNat (a.arguments.headD [])
        match processUnStakeValue p w s d unStakeValue with
        | (s, .error rc) => (s, rc)
        | (s, .ok d) => (saveRegistrationData s a.callerAddr d, .Ok)

/-- `basicChecksForUnStakeNodes` (node-level unstake preflight). -/
def basicChecksForUnStakeNodes (p : SCParams) (s : EEIState)
    (a : ContractCallInput) : EEIState × Except ReturnCode ValidatorDataV2 :=
  if ¬ (a.callValue = 0) then
    (addReturnMessage s transactionValueMustBeZero, .error .UserError)
  else if a.arguments = [] then
    (addReturnMessage s "invalid number of arguments: expected min 1, got 0", .error .UserError)
  else if ¬ p.flagEnableStaking then
    (addReturnMessage s "unStake is not enabled", .error .UserError)
  else
    let d := getOrCreateRegistrationData s a.callerAddr
    match useGas (p.gasCost.unStake * a.arguments.length) s with
    | none => (addReturnMessage s insufficientGasLimit, .error .OutOfGas)
    | some s =>
      if ¬ verifyBLSPublicKeys d a.arguments then
        (addReturnMessage s
          ("cannot get all blsKeys from registration data: " ++ blsKeyMismatchMsg),
         .error .UserError)
      else (s, .ok d)

/-- `unStakeNodesFromStakingSC`: per-key `unStake@bls@reward` commands,
counting the successes. -/
def unStakeNodesFromStakingSC (w : World) (rewardAddress : Bytes) :
    List Bytes → EEIState → Nat → EEIState × Nat
  | [], s, numSuccess => (s, numSuccess)
  | k :: rest, s, numSuccess =>
    let r := executeOnStakingSC w s
      ("unStake@" ++ hexEncode k ++ "@" ++ hexEncode rewardAddress)
    if r.2.isError then
      unStakeNodesFromStakingSC w rewardAddress rest
        (finishKeyCode
          (addReturnMessage r.1
            ("cannot do unStake for key " ++ hexEncode k ++ ": " ++ r.2.errMsg))
          k failedCode)
        numSuccess
    else if ¬ (r.2.retCode = .Ok) then
      unStakeNodesFromStakingSC w rewardAddress rest
        (finishKeyCode
          (addReturnMessage r.1
            ("cannot do unStake for key " ++ hexEncode k ++ ": " ++ r.2.retCode.text))
          k failedCode)
        numSuccess
    else unStakeNodesFromStakingSC w rewardAddress rest r.1 (numSuccess + 1)

/-- `unStake` (complete unstake; token movement only in the top-up era). -/
def unStake (p : SCParams) (w : World) (s : EEIState)
    (a : ContractCallInput) : EEIState × ReturnCode :=
  if isUnStakeUnBondPaused s then
    (addReturnMessage s pausedMessage, .UserError)
  else match basicChecksForUnStakeNodes p s a with
  | (s, .error rc) => (s, rc)
  | (s, .ok d) =>
    let r := unStakeNodesFromStakingSC w d.rewardAddress a.arguments s 0
    if ¬ p.flagEnableTopUp then (r.1, .Ok)
    else
      let s := r.1
      let cfg := getConfig p s
      let unStakeFromNodes0 : Int := cfg.nodePrice * r.2
      let unStakeFromNodes :=
        if d.totalStakeValue < unStakeFromNodes0 then d.totalStakeValue
        else unStakeFromNodes0
      match processUnStakeValue p w s d unStakeFromNodes with
      | (s, .error rc) => (s, rc)
      | (s, .ok d) => (saveRegistrationData s a.callerAddr d, .Ok)

/-- `unStakeNodes` (top-up era, node-side only). -/
def unStakeNodes (p : SCParams) (w : World) (s : EEIState)
    (a : ContractCallInput) : EEIState × ReturnCode :=
  if ¬ p.flagEnableTopUp then
    (addReturnMessage s "invalid method to call", .UserError)
  else if isUnStakeUnBondPaused s then
    (addReturnMessage s pausedMessage, .UserError)
  else match basicChecksForUnStakeNodes p s a with
  | (s, .error rc) => (s, rc)
  | (s, .ok d) => ((unStakeNodesFromStakingSC w d.rewardAddress a.arguments s 0).1, .Ok)

/-! ### UnBond family -/

/-- `checkUnBondArguments` (node-level unbond preflight; gas is charged after
the key-ownership check here, unlike the unstake preflight). -/
def checkUnBondArguments (p : SCParams) (s : EEIState)
    (a : ContractCallInput) : EEIState × Except ReturnCode ValidatorDataV2 :=
  if ¬ (a.callValue = 0) then
    (addReturnMessage s transactionValueMustBeZero, .error .UserError)
  else if a.arguments = [] then
    (addReturnMessage s "invalid number of arguments: expected min 1, got 0", .error .UserError)
  else if ¬ p.flagEnableStaking then
    (addReturnMessage s "unBond is not enabled", .error .UserError)
  else
    let d := getOrCreateRegistrationData s a.callerAddr
    if ¬ verifyBLSPublicKeys d a.arguments then
      (addReturnMessage s
        ("cannot get all blsKeys from registration data: " ++ blsKeyMismatchMsg),
       .error .UserError)
    else match useGas (p.gasCost.unBond * a.arguments.length) s with
    | none => (addReturnMessage s insufficientGasLimit, .error .OutOfGas)
    | some s => (s, .ok d)

/-- `unBondNodesFromStakingSC`: per-key `unBond@bls` commands, collecting the
successfully unbonded keys in order. -/
def unBondNodesFromStakingSC (w : World) :
    List Bytes → EEIState → List Bytes → EEIState × List Bytes
  | [], s, acc => (s, acc)
  | k :: rest, s, acc =>
    let r := executeOnStakingSC w s ("unBond@" ++ hexEncode k)
    if r.2.isError ∨ ¬ (r.2.retCode = .Ok) then
      unBondNodesFromStakingSC w rest
        (finishKeyCode
          (addReturnMessage r.1 ("cannot do unBond for key: " ++ hexEncode k))
          k failedCode)
        acc
    else unBondNodesFromStakingSC w rest r.1 (acc ++ [k])

/-- Go's in-place removal of one key from `BlsPubKeys`: the first match is
overwritten with the last element and the slice is shortened by one. -/
def swapRemoveFirst (key : Bytes) (l : List Bytes) : List Bytes :=
  match l.findIdx? (· == key) with
  | none => l
  | some i => (l.set i (l.getD (l.length - 1) [])).take (l.length - 1)

/-- `deleteUnBondedKeys`. -/
def deleteUnBondedKeys (d : ValidatorDataV2) (unBondedKeys : List Bytes) :
    ValidatorDataV2 :=
  { d with blsPubKeys := unBondedKeys.foldl (fun l k => swapRemoveFirst k l) d.blsPubKeys }

/-- `unBondV1` (pre-top-up unbond). -/
def unBondV1 (p : SCParams) (w : World) (s : EEIState)
    (a : ContractCallInput) : EEIState × ReturnCode :=
  match checkUnBondArguments p s a with
  | (s, .error rc) => (s, rc)
  | (s, .ok d) =>
    let r := unBondNodesFromStakingSC w a.arguments s []
    let s := r.1
    let unBondedKeys := r.2
    let cfg := getConfig p s
    let totalUnBond : Int := cfg.nodePrice * unBondedKeys.length
    if d.lockedStake < totalUnBond then
      (addReturnMessage s "contract error on unBond function, lockedStake < totalUnBond",
       .UserError)
    else if d.numRegistered < unBondedKeys.length then
      (addReturnMessage s "contract error on unBond function, missing nodes", .UserError)
    else
      let d :=
        { d with
          numRegistered := d.numRegistered - unBondedKeys.length
          lockedStake := d.lockedStake - totalUnBond
          totalStakeValue := d.totalStakeValue - totalUnBond }
      if d.totalStakeValue < 0 then
        (addReturnMessage s "contract error on unBond function, total stake < 0", .UserError)
      else
        let s :=
          if d.lockedStake = 0 ∧ d.totalStakeValue = 0 then
            setRecord s a.callerAddr none
          else saveRegistrationData s a.callerAddr (deleteUnBondedKeys d unBondedKeys)
        (doTransfer s a.callerAddr a.recipientAddr totalUnBond, .Ok)

/-- The Go `uint64` maturity test `currentNonce - entry.nonce >= unBondPeriod`
(wrapping subtraction on 64 bits). -/
def canUnBond (cur period nonce : Nat) : Bool :=
  period ≤ (cur % 2 ^ 64 + 2 ^ 64 - nonce % 2 ^ 64) % 2 ^ 64

/-- The scan loop of `unBondTokensFromRegistrationData`: walks the matured
prefix accumulating values, stopping early at the ceiling when one is given;
returns `(totalUnBond, index, splitUnStakedInfo)`. -/
def scanLoop (cur period : Nat) (stopAt : Bool) (valueToUnBond : Int) :
    List UnstakedValue → Int → Nat → Int × Nat × UnstakedValue
  | [], total, index => (total, index, ⟨0, 0⟩)
  | e :: rest, total, index =>
    if canUnBond cur period e.unstakedNonce then
      let total2 := total + e.unstakedValue
      if stopAt ∧ valueToUnBond ≤ total2 then
        (valueToUnBond, index + 1, ⟨e.unstakedNonce, total2 - valueToUnBond⟩)
      else scanLoop cur period stopAt valueToUnBond rest total2 (index + 1)
    else (total, index, ⟨0, 0⟩)

/-- `unBondTokensFromRegistrationData`: consume matured `UnstakedInfo`
entries (up to the ceiling when positive), remove the consumed prefix and
subtract from `TotalUnstaked`; underflow is `UserError`. -/
def unBondTokensFromRegistrationData (p : SCParams) (w : World) (s : EEIState)
    (d : ValidatorDataV2) (valueToUnBond : Int) :
    EEIState × Except ReturnCode (Int × ValidatorDataV2) :=
  let stopAt := decide (0 < valueToUnBond)
  let r := scanLoop w.currentNonce p.unBondPeriod stopAt valueToUnBond d.unstakedInfo 0 0
  let totalUnBond := r.1
  let split := r.2.2
  let newInfo :=
    if 0 < split.unstakedValue then
      (d.unstakedInfo.set (r.2.1 - 1) split).drop (r.2.1 - 1)
    else d.unstakedInfo.drop r.2.1
  let newTotalUnstaked := d.totalUnstaked - totalUnBond
  if newTotalUnstaked < 0 then
    (addReturnMessage s "too much requested to unBond", .error .UserError)
  else
    (s, .ok (totalUnBond,
      { d with unstakedInfo := newInfo, totalUnstaked := newTotalUnstaked }))

/-- `updateRegistrationDataAfterUnBond` (top-up era): recompute
`NumRegistered`/`LockedStake`; delete the record when `TotalStakeValue` is
zero, else drop the unbonded keys and save. -/
def updateRegistrationDataAfterUnBond (p : SCParams) (s : EEIState)
    (d : ValidatorDataV2) (unBondedKeys : List Bytes) (callerAddr : Bytes) :
    EEIState × ReturnCode :=
  if d.numRegistered < unBondedKeys.length then
    (addReturnMessage s "contract error on unBond function, missing nodes", .UserError)
  else
    let cfg := getConfig p s
    let num := d.numRegistered - unBondedKeys.length
    let d := { d with numRegistered := num, lockedStake := cfg.nodePrice * num }
    if d.totalStakeValue = 0 then (setRecord s callerAddr none, .Ok)
    else
      let d := deleteUnBondedKeys d unBondedKeys
      (saveRegistrationData s callerAddr d, .Ok)

/-- `unBond` (top-up era; falls back to `unBondV1` before it). -/
def unBond (p : SCParams) (w : World) (s : EEIState)
    (a : ContractCallInput) : EEIState × ReturnCode :=
  if ¬ p.flagEnableTopUp then unBondV1 p w s a
  else if isUnStakeUnBondPaused s then
    (addReturnMessage s pausedMessage, .UserError)
  else match checkUnBondArguments p s a with
  | (s, .error rc) => (s, rc)
  | (s, .ok d) =>
    let r := unBondNodesFromStakingSC w a.arguments s []
    let s := r.1
    let unBondedKeys := r.2
    let cfg := getConfig p s
    let totalUnBond0 : Int := cfg.nodePrice * unBondedKeys.length
    match unBondTokensFromRegistrationData p w s d totalUnBond0 with
    | (s, .error rc) => (s, rc)
    | (s, .ok (totalUnBond, d)) =>
      let r2 := updateRegistrationDataAfterUnBond p s d unBondedKeys a.callerAddr
      if ¬ (r2.2 = .Ok) then r2
      else (doTransfer r2.1 a.callerAddr a.recipientAddr totalUnBond, .Ok)

/-- `unBondNodes` (top-up era, node-side only, no transfer). -/
def unBondNodes (p : SCParams) (w : World) (s : EEIState)
    (a : ContractCallInput) : EEIState × ReturnCode :=
  if ¬ p.flagEnableTopUp then
    (addReturnMessage s "invalid method to call", .UserError)
  else if isUnStakeUnBondPaused s then
    (addReturnMessage s pausedMessage, .UserError)
  else match checkUnBondArguments p s a with
  | (s, .error rc) => (s, rc)
  | (s, .ok d) =>
    let r := unBondNodesFromStakingSC w a.arguments s []
    let r2 := updateRegistrationDataAfterUnBond p r.1 d r.2 a.callerAddr
    if ¬ (r2.2 = .Ok) then r2 else (r2.1, .Ok)

/-- `unBondTokens` (top-up era, token-side only). -/
def unBondTokens (p : SCParams) (w : World) (s : EEIState)
    (a : ContractCallInput) : EEIState × ReturnCode :=
  match basicCheckForUnStakeUnBond p s a with
  | (s, .error rc) => (s, rc)
  | (s, .ok d) =>
    if isUnStakeUnBondPaused s then
      (addReturnMessage s pausedMessage, .UserError)
    else match useGas p.gasCost.unBondTokens s with
    | none => (addReturnMessage s insufficientGasLimit, .OutOfGas)
    | some s =>
      if 1 < a.arguments.length then
        (addReturnMessage s "too many arguments", .UserError)
      else
        let valueToUnBond : Int :=
          if a.arguments.length = 1 then bytesToNat (a.arguments.headD []) else 0
        if a.arguments.length = 1 ∧ valueToUnBond ≤ 0 then
          (addReturnMessage s "cannot unBond negative value or zero value", .UserError)
        else match unBondTokensFromRegistrationData p w s d valueToUnBond with
        | (s, .error rc) => (s, rc)
        | (s, .ok (totalUnBond, d)) =>
          if totalUnBond = 0 then
            (addReturnMessage s "no tokens that can be unbond at this time", .Ok)
          else
            let s := doTransfer s a.callerAddr a.recipientAddr totalUnBond
            (saveRegistrationData s a.callerAddr d, .Ok)

/-! ### cleanRegisteredData -/

/-- The dedupe loop of `cleanRegisteredData`: keep first occurrences, report
whether a duplicate was dropped. -/
def dedupLoop (seen : List Bytes) : List Bytes → List Bytes × Bool
  | [] => ([], false)
  | k :: rest =>
    if k ∈ seen then ((dedupLoop seen rest).1, true)
    else
      let r := dedupLoop (k :: seen) rest
      (k :: r.1, r.2)

/-- `cleanRegisteredData` (double-key era): dedupe `BlsPubKeys`, saving only
when a change was made. -/
def cleanRegisteredData (p : SCParams) (s : EEIState)
    (a : ContractCallInput) : EEIState × ReturnCode :=
  if ¬ p.flagDoubleKey then
    (addReturnMessage s "invalid method to call", .UserError)
  else match useGas p.gasCost.stake s with
  | none => (addReturnMessage s insufficientGasLimit, .OutOfGas)
  | some s =>
    if ¬ (a.callValue = 0) then
      (addReturnMessage s "must be called with 0 value", .UserError)
    else if ¬ (a.arguments = []) then
      (addReturnMessage s "must be called with 0 arguments", .UserError)
    else
      let d := getOrCreateRegistrationData s a.callerAddr
      if d.blsPubKeys.length ≤ 1 then (s, .Ok)
      else
        let r := dedupLoop [] d.blsPubKeys
        if ¬ r.2 then (s, .Ok)
        else (saveRegistrationData s a.callerAddr { d with blsPubKeys := r.1 }, .Ok)

/-! ### Stake -/

/-- Probe loop of `getNewValidKeys`: `get@bls` existence probes, stopping at
the first key that errors or is already bound to someone. -/
def getNewValidKeysProbe (w : World) : List Bytes → EEIState → EEIState × Bool
  | [], s => (s, true)
  | k :: rest, s =>
    let r := executeOnStakingSC w s ("get@" ++ hexEncode k)
    if r.2.isError ∨ (¬ (r.2.retData = []) ∧ ¬ (r.2.retData.headD [] = [])) then
      (r.1, false)
    else getNewValidKeysProbe w rest r.1

/-- The keys of the argument list not already registered to the owner (the
`registeredKeysMap` filter of `getNewValidKeys`). -/
def newKeysOf (registeredKeys keysFromArgument : List Bytes) : List Bytes :=
  keysFromArgument.filter fun k => ¬ k ∈ registeredKeys

/-- `getNewValidKeys`: drop the keys the owner already holds, then probe the
rest for existence in the Staking Registry (`none` models the
`ErrKeyAlreadyRegistered` return). -/
def getNewValidKeys (w : World) (s : EEIState)
    (registeredKeys keysFromArgument : List Bytes) :
    EEIState × Option (List Bytes) :=
  let newKeys := newKeysOf registeredKeys keysFromArgument
  let r := getNewValidKeysProbe w newKeys s
  if r.2 then (r.1, some newKeys) else (r.1, none)

/-- Pairs `(blsKey, signature)` at argument positions `1,2`, `3,4`, … -/
def keyPairs (args : List Bytes) (m : Nat) : List (Bytes × Bytes) :=
  (List.range m).map fun j => (args.getD (2 * j + 1) [], args.getD (2 * j + 2) [])

/-- Verification loop of `getVerifiedBLSKeysFromArgs`: invalid keys are
finish-reported and collected (hex) for the return message. -/
def verifyKeysLoop (w : World) (txPubKey : Bytes) :
    List (Bytes × Bytes) → EEIState → EEIState × List Bytes × List String
  | [], s => (s, [], [])
  | (blsKey, sig) :: rest, s =>
    if w.sigVerify txPubKey sig blsKey then
      let r := verifyKeysLoop w txPubKey rest s
      (r.1, blsKey :: r.2.1, r.2.2)
    else
      let r := verifyKeysLoop w txPubKey rest (finishKeyCode s blsKey invalidKeyCode)
      (r.1, r.2.1, hexEncode blsKey :: r.2.2)

/-- `getVerifiedBLSKeysFromArgs`. -/
def getVerifiedBLSKeysFromArgs (w : World) (s : EEIState) (txPubKey : Bytes)
    (args : List Bytes) : EEIState × List Bytes :=
  let m := bytesToUint64 (args.headD [])
  let r := verifyKeysLoop w txPubKey (keyPairs args m) s
  let s :=
    if ¬ (r.2.2 = []) then
      addReturnMessage r.1 ("invalid BLS keys: " ++ String.intercalate ", " r.2.2)
    else r.1
  (s, r.2.1)

/-- Outcome of the register loop inside `registerBLSKeys`. -/
inductive RegisterOutcome where
  | done
  | hostError
  | registryNotOk
  deriving DecidableEq, Repr

/-- Register loop of `registerBLSKeys`: `register@bls@reward@owner@` per new
key, appending to `BlsPubKeys` on success. -/
def registerKeysLoop (w : World) (rewardAddress ownerAddress : Bytes) :
    List Bytes → EEIState → ValidatorDataV2 →
    EEIState × ValidatorDataV2 × RegisterOutcome
  | [], s, d => (s, d, .done)
  | k :: rest, s, d =>
    let r := executeOnStakingSC w s
      ("register@" ++ hexEncode k ++ "@" ++ hexEncode rewardAddress ++ "@" ++
       hexEncode ownerAddress ++ "@")
    if r.2.isError then
      (finishKeyCode (addReturnMessage r.1 ("cannot do register: " ++ r.2.errMsg))
        k failedCode, d, .hostError)
    else if ¬ (r.2.retCode = .Ok) then
      (finishKeyCode (addReturnMessage r.1 ("cannot do register: " ++ r.2.retCode.text))
        k failedCode, d, .registryNotOk)
    else
      registerKeysLoop w rewardAddress ownerAddress rest r.1
        { d with blsPubKeys := d.blsPubKeys ++ [k] }

/-- `vm.ErrNotEnoughArgumentsToStake.Error()`. -/
def notEnoughArgumentsMsg : String := "not enough arguments to stake"

/-- `registerBLSKeys`. On the host-error branch the Go code executes
`return nil, err` where `err` is still `nil`, so the caller sees a nil error
and nil keys; this is modelled bug-faithfully as `.ok []`. -/
def registerBLSKeys (w : World) (s : EEIState) (d : ValidatorDataV2)
    (pubKey ownerAddress : Bytes) (args : List Bytes) :
    EEIState × ValidatorDataV2 × Except String (List Bytes) :=
  let maxNodesToRun := bytesToUint64 (args.headD [])
  if args.length < maxNodesToRun + 1 then
    (addReturnMessage s
      ("not enough arguments to process stake function: expected min " ++
       toString (maxNodesToRun + 1) ++ ", got " ++ toString args.length),
     d, .error notEnoughArgumentsMsg)
  else
    let rv := getVerifiedBLSKeysFromArgs w s pubKey args
    let blsKeys := rv.2
    match getNewValidKeys w rv.1 d.blsPubKeys blsKeys with
    | (s, none) => (s, d, .error keyAlreadyRegisteredMsg)
    | (s, some newKeys) =>
      match registerKeysLoop w d.rewardAddress ownerAddress newKeys s d with
      | (s, d, .done) => (s, d, .ok blsKeys)
      | (s, d, .hostError) => (s, d, .ok [])
      | (s, d, .registryNotOk) => (s, d, .error keyAlreadyRegisteredMsg)

/-- The duplicate-detection loop of `checkDoubleBLSKeys`. -/
def checkDoubleLoop (seen : List Bytes) : List Bytes → Bool
  | [] => false
  | k :: rest => if k ∈ seen then true else checkDoubleLoop (k :: seen) rest

/-- `checkDoubleBLSKeys`. -/
def checkDoubleBLSKeys (keys : List Bytes) : Bool :=
  checkDoubleLoop [] keys

/-- The activation loop of `activateStakingFor`: `stake@bls@reward@owner` per
key until `numQualified` is reached. -/
def activateLoop (w : World) (numQualified : Nat) (rewardAddress ownerAddress : Bytes) :
    List Bytes → EEIState → Nat → EEIState × Nat
  | [], s, numRegistered => (s, numRegistered)
  | k :: rest, s, numRegistered =>
    if ¬ (numRegistered < numQualified) then (s, numRegistered)
    else match getStakedData w k with
    | none => activateLoop w numQualified rewardAddress ownerAddress rest s numRegistered
    | some sd =>
      if sd.staked ∨ sd.waiting then
        activateLoop w numQualified rewardAddress ownerAddress rest s numRegistered
      else
        let r := executeOnStakingSC w s
          ("stake@" ++ hexEncode k ++ "@" ++ hexEncode rewardAddress ++ "@" ++
           hexEncode ownerAddress)
        if r.2.isError then
          activateLoop w numQualified rewardAddress ownerAddress rest
            (finishKeyCode
              (addReturnMessage r.1
                ("cannot do stake for key " ++ hexEncode k ++ ", error " ++ r.2.errMsg))
              k failedCode)
            numRegistered
        else if ¬ (r.2.retCode = .Ok) then
          activateLoop w numQualified rewardAddress ownerAddress rest
            (finishKeyCode
              (addReturnMessage r.1
                ("cannot do stake for key " ++ hexEncode k ++ ", error " ++ r.2.retCode.text))
              k failedCode)
            numRegistered
        else
          let s :=
            if ¬ (r.2.retData = []) ∧ r.2.retData.headD [] = [waitingCode] then
              finishKeyCode r.1 k waitingCode
            else r.1
          let numRegistered :=
            if sd.unStakedNonce = 0 then numRegistered + 1 else numRegistered
          activateLoop w numQualified rewardAddress ownerAddress rest s numRegistered

/-- `activateStakingFor`: run the activation loop, then store the final
counter (`uint32` truncation) and `LockedStake = NodePrice × counter`. -/
def activateStakingFor (w : World) (s : EEIState) (d : ValidatorDataV2)
    (blsKeys : List Bytes) (numQualified : Nat) (fixedStakeValue : Int)
    (rewardAddress ownerAddress : Bytes) : EEIState × ValidatorDataV2 :=
  let r := activateLoop w numQualified rewardAddress ownerAddress blsKeys s d.numRegistered
  (r.1, { d with
    numRegistered := r.2 % 2 ^ 32
    lockedStake := fixedStakeValue * r.2 })

/-- `updateStakeValue` (pure top-up when `stake` has no arguments). -/
def updateStakeValue (w : World) (s : EEIState) (d : ValidatorDataV2)
    (caller : Bytes) : EEIState × ReturnCode :=
  if d.blsPubKeys = [] ∧ ¬ w.isSCAddress caller then
    (addReturnMessage s "no bls keys has been provided", .UserError)
  else
    let d := if d.rewardAddress = [] then { d with rewardAddress := caller } else d
    (saveRegistrationData s caller d, .Ok)

/-- The trailing-optional-arguments loop of `stake` (reward address /
`MaxStakePerNode`). -/
def stakeOptionsLoop (p : SCParams) (isAlreadyRegistered : Bool) :
    List Bytes → EEIState → ValidatorDataV2 → EEIState × ValidatorDataV2
  | [], s, d => (s, d)
  | argI :: rest, s, d =>
    if argI.length = p.walletAddressLen then
      if ¬ isAlreadyRegistered then
        stakeOptionsLoop p isAlreadyRegistered rest s { d with rewardAddress := argI }
      else
        stakeOptionsLoop p isAlreadyRegistered rest
          (addReturnMessage s
            "reward address after being registered can be changed only through changeRewardAddress")
          d
    else
      stakeOptionsLoop p isAlreadyRegistered rest s
        { d with maxStakePerNode := bytesToNat argI }

/-- `stake`. -/
def stake (p : SCParams) (w : World) (s : EEIState) (a : ContractCallInput) :
    EEIState × ReturnCode :=
  match useGas p.gasCost.stake s with
  | none => (addReturnMessage s insufficientGasLimit, .OutOfGas)
  | some s =>
    let isGenesis := w.currentNonce = 0
    if ¬ (isGenesis ∨ p.flagEnableStaking) then
      (addReturnMessage s "stake is not enabled", .UserError)
    else
      let cfg := getConfig p s
      let d := getOrCreateRegistrationData s a.callerAddr
      let d := { d with totalStakeValue := d.totalStakeValue + a.callValue }
      if d.totalStakeValue < cfg.nodePrice ∧ ¬ w.isSCAddress a.callerAddr then
        (addReturnMessage s
          ("insufficient stake value: expected " ++ toString cfg.nodePrice ++
           ", got " ++ toString d.totalStakeValue),
         .UserError)
      else if a.arguments = [] then updateStakeValue w s d a.callerAddr
      else if ¬ isNumArgsCorrectToStake a.arguments then
        (addReturnMessage s "invalid number of arguments to call stake", .UserError)
      else
        let maxNodesToRun := bytesToUint64 (a.arguments.headD [])
        if maxNodesToRun = 0 then
          (addReturnMessage s "number of nodes argument must be greater than zero", .UserError)
        else match useGas ((maxNodesToRun - 1) * p.gasCost.stake) s with
        | none => (addReturnMessage s insufficientGasLimit, .OutOfGas)
        | some s =>
          let isAlreadyRegistered := ¬ (d.rewardAddress = [])
          let d :=
            if ¬ isAlreadyRegistered then { d with rewardAddress := a.callerAddr } else d
          let d := { d with maxStakePerNode := d.totalStakeValue, epoch := w.currentEpoch }
          match registerBLSKeys w s d a.callerAddr a.callerAddr a.arguments with
          | (s, _, .error e) =>
            (addReturnMessage s ("cannot register bls key: error " ++ e), .UserError)
          | (s, d, .ok blsKeys) =>
            if p.flagDoubleKey ∧ checkDoubleBLSKeys blsKeys then
              (addReturnMessage s "invalid arguments, found same bls key twice", .UserError)
            else
              let numQualified := Int.ediv d.totalStakeValue cfg.nodePrice
              if numQualified.toNat % 2 ^ 64 < d.blsPubKeys.length then
                (addReturnMessage s "insufficient funds", .OutOfFunds)
              else
                let ro := stakeOptionsLoop p isAlreadyRegistered
                  (a.arguments.drop (maxNodesToRun * 2 + 1)) s d
                let ra := activateStakingFor w ro.1 ro.2 blsKeys
                  (numQualified.toNat % 2 ^ 64) cfg.nodePrice ro.2.rewardAddress a.callerAddr
                (saveRegistrationData ra.1 a.callerAddr ra.2, .Ok)

/-! ### changeRewardAddress, views, updateStakingV2, setConfig -/

/-- `changeRewardAddress`. -/
def changeRewardAddress (p : SCParams) (w : World) (s : EEIState)
    (a : ContractCallInput) : EEIState × ReturnCode :=
  if ¬ (a.callValue = 0) then
    (addReturnMessage s transactionValueMustBeZero, .UserError)
  else if a.arguments = [] then
    (addReturnMessage s "invalid number of arguments: expected min 1, got 0", .UserError)
  else if ¬ ((a.arguments.headD []).length = p.walletAddressLen) then
    (addReturnMessage s "wrong reward address", .UserError)
  else
    let d := getOrCreateRegistrationData s a.callerAddr
    if d.rewardAddress = [] then
      (addReturnMessage s "cannot change reward address, key is not registered", .UserError)
    else if d.rewardAddress = a.arguments.headD [] then
      (addReturnMessage s "new reward address is equal with the old reward address", .UserError)
    else match useGas (p.gasCost.changeRewardAddress * d.blsPubKeys.length) s with
    | none => (addReturnMessage s insufficientGasLimit, .OutOfGas)
    | some s =>
      let d := { d with rewardAddress := a.arguments.headD [] }
      let s := saveRegistrationData s a.callerAddr d
      let txData := d.blsPubKeys.foldl (fun acc k => acc ++ "@" ++ hexEncode k)
        ("changeRewardAddress@" ++ hexEncode d.rewardAddress)
      let r := executeOnStakingSC w s txData
      if r.2.isError then
        (addReturnMessage r.1 ("cannot change reward address: error " ++ r.2.errMsg), .UserError)
      else if ¬ (r.2.retCode = .Ok) then (r.1, r.2.retCode)
      else (r.1, .Ok)

/-- Raw storage reads for the `get` debug view: the singleton keys, else a
marshaled registration record (the marshaler and big-int encoding live in the
`World` oracle). The singleton key strings `unJailFunds` / `unStakeUnBondPause`
are source constants; `owner` is the owner-key constant of the package. -/
def rawStorage (w : World) (s : EEIState) (key : Bytes) : Bytes :=
  if key = strBytes "unStakeUnBondPause" then s.pauseStorage
  else if key = strBytes "unJailFunds" then w.intBytes s.unJailFunds
  else if key = strBytes "owner" then s.ownerStorage.getD []
  else match s.records key with
  | some d => w.marshal d
  | none => []

/-- `get` (debug view). -/
def get (p : SCParams) (w : World) (s : EEIState) (a : ContractCallInput) :
    EEIState × ReturnCode :=
  if ¬ (a.callValue = 0) then
    (addReturnMessage s transactionValueMustBeZero, .UserError)
  else if ¬ (a.arguments.length = 1) then
    (addReturnMessage s "invalid number of arguments: expected exactly 1, got 0", .UserError)
  else match useGas p.gasCost.get s with
  | none => (addReturnMessage s insufficientGasLimit, .OutOfGas)
  | some s => (doFinish s (rawStorage w s (a.arguments.headD [])), .Ok)

/-- `getTotalStaked`. -/
def getTotalStaked (p : SCParams) (s : EEIState) (a : ContractCallInput) :
    EEIState × ReturnCode :=
  if ¬ (a.callValue = 0) then
    (addReturnMessage s transactionValueMustBeZero, .UserError)
  else match useGas p.gasCost.get s with
  | none => (addReturnMessage s insufficientGasLimit, .OutOfGas)
  | some s =>
    let d := getOrCreateRegistrationData s a.callerAddr
    if d.rewardAddress = [] then
      (addReturnMessage s "caller not registered in staking/validator sc", .UserError)
    else (doFinish s (strBytes (toString d.totalStakeValue)), .Ok)

/-- `getTotalStakedTopUpBlsKeys`. -/
def getTotalStakedTopUpBlsKeys (p : SCParams) (s : EEIState)
    (a : ContractCallInput) : EEIState × ReturnCode :=
  if ¬ p.flagEnableTopUp then
    (addReturnMessage s "invalid method to call", .UserError)
  else if ¬ (a.callValue = 0) then
    (addReturnMessage s transactionValueMustBeZero, .UserError)
  else match useGas p.gasCost.get s with
  | none => (addReturnMessage s insufficientGasLimit, .OutOfGas)
  | some s =>
    let d := getOrCreateRegistrationData s a.callerAddr
    if d.rewardAddress = [] then
      (addReturnMessage s "caller not registered in staking/validator sc", .UserError)
    else
      let cfg := getConfig p s
      let stakeForNodes : Int := cfg.nodePrice * d.numRegistered
      let topUp := d.totalStakeValue - stakeForNodes
      if d.totalStakeValue < 0 then
        (addReturnMessage s
          "contract error on getTopUp function, total stake < locked stake value", .UserError)
      else
        let s := doFinish s (strBytes (toString topUp))
        let s := doFinish s (strBytes (toString d.totalStakeValue))
        (d.blsPubKeys.foldl doFinish s, .Ok)

/-- The per-key loop of `getBlsKeysStatus`. -/
def getBlsKeysStatusLoop (w : World) : List Bytes → EEIState → EEIState
  | [], s => s
  | k :: rest, s =>
    let r := executeOnStakingSC w s ("getBLSKeyStatus@" ++ hexEncode k)
    if r.2.isError then
      getBlsKeysStatusLoop w rest
        (addReturnMessage r.1
          ("cannot get bls key status: bls key - " ++ hexEncode k ++ " error - " ++ r.2.errMsg))
    else if ¬ (r.2.retCode = .Ok) then
      getBlsKeysStatusLoop w rest
        (addReturnMessage r.1 ("error in getting bls key status: bls key - " ++ hexEncode k))
    else if ¬ (r.2.retData.length = 1) then
      getBlsKeysStatusLoop w rest
        (addReturnMessage r.1 ("cannot get bls key status for key " ++ hexEncode k))
    else getBlsKeysStatusLoop w rest (doFinish (doFinish r.1 k) (r.2.retData.headD []))

/-- `getBlsKeysStatus` (internal view). -/
def getBlsKeysStatus (p : SCParams) (w : World) (s : EEIState)
    (a : ContractCallInput) : EEIState × ReturnCode :=
  if ¬ (a.callerAddr = p.validatorSCAddress) then
    (addReturnMessage s "this is only a view function", .UserError)
  else if ¬ (a.arguments.length = 1) then
    (addReturnMessage s "number of arguments must be equal to 1", .UserError)
  else
    let d := getOrCreateRegistrationData s (a.arguments.headD [])
    if d.blsPubKeys = [] then (addReturnMessage s "no bls keys", .Ok)
    else (getBlsKeysStatusLoop w d.blsPubKeys s, .Ok)

/-- `setOwnerOfBlsKey`. -/
def setOwnerOfBlsKey (w : World) (s : EEIState) (blsKey ownerAddress : Bytes) :
    EEIState × Bool :=
  let r := executeOnStakingSC w s
    ("setOwner@" ++ hexEncode blsKey ++ "@" ++ hexEncode ownerAddress)
  if r.2.isError then
    (finishKeyCode
      (addReturnMessage r.1
        ("cannot set owner for key " ++ hexEncode blsKey ++ ", error " ++ r.2.errMsg))
      blsKey failedCode, false)
  else if ¬ (r.2.retCode = .Ok) then
    (finishKeyCode
      (addReturnMessage r.1
        ("cannot set owner for key " ++ hexEncode blsKey ++ ", error " ++ r.2.retCode.text))
      blsKey failedCode, false)
  else (r.1, true)

/-- The per-key loop of `updateStakingV2`. -/
def updateStakingV2Loop (w : World) (owner : Bytes) :
    List Bytes → EEIState → EEIState × Bool
  | [], s => (s, true)
  | k :: rest, s =>
    let r := setOwnerOfBlsKey w s k owner
    if r.2 then updateStakingV2Loop w owner rest r.1 else (r.1, false)

/-- `updateStakingV2` (top-up era, internal-only). -/
def updateStakingV2 (p : SCParams) (w : World) (s : EEIState)
    (a : ContractCallInput) : EEIState × ReturnCode :=
  if ¬ p.flagEnableTopUp then
    (addReturnMessage s "invalid method to call", .UserError)
  else if ¬ (a.callerAddr = p.validatorSCAddress) then
    (addReturnMessage s "this is a function that has to be called internally", .UserError)
  else if ¬ (a.arguments.length = 1) then
    (addReturnMessage s "should have provided only one argument: the owner address", .UserError)
  else if ¬ ((a.arguments.headD []).length = p.walletAddressLen) then
    (addReturnMessage s "wrong owner address", .UserError)
  else if ¬ (a.callValue = 0) then
    (addReturnMessage s transactionValueMustBeZero, .UserError)
  else
    let d := getOrCreateRegistrationData s (a.arguments.headD [])
    if d.rewardAddress = [] then
      (addReturnMessage s "key is not registered, updateStakingV2 is not possible", .UserError)
    else
      let r := updateStakingV2Loop w (a.arguments.headD []) d.blsPubKeys s
      if r.2 then (r.1, .Ok) else (r.1, .UserError)

/-- The config validity check of `verifyConfig` (all five scalars strictly
positive). -/
def configValid (c : ValidatorConfig) : Bool :=
  0 < c.minStakeValue ∧ 0 < c.totalSupply ∧ 0 < c.minStep ∧
    0 < c.nodePrice ∧ 0 < c.unJailPrice

/-- Modelled from the spec: the `setConfig` handler is dispatched but its
body is not among the source files; per the spec it decodes a configuration,
requires all five scalars strictly positive (`UserError` otherwise), stores
it, and touches no registration record. -/
def setConfig (w : World) (s : EEIState) (a : ContractCallInput) :
    EEIState × ReturnCode :=
  match w.decodeConfig a.arguments with
  | none => (addReturnMessage s "incorrect config", .UserError)
  | some c =>
    if configValid c then ({ s with storedConfig := some c }, .Ok)
    else (addReturnMessage s "invalid config value", .UserError)

/-! ### Dispatcher -/

/-- `Execute`: the dispatcher (`core.SCDeployInitFunctionName` is `_init`). -/
def execute (p : SCParams) (w : World) (s : EEIState) (a : ContractCallInput) :
    EEIState × ReturnCode :=
  if a.function = "_init" then init s a
  else if a.function = "stake" then stake p w s a
  else if a.function = "unStake" then unStake p w s a
  else if a.function = "unStakeNodes" then unStakeNodes p w s a
  else if a.function = "unStakeTokens" then unStakeTokens p w s a
  else if a.function = "unBond" then unBond p w s a
  else if a.function = "unBondNodes" then unBondNodes p w s a
  else if a.function = "unBondTokens" then unBondTokens p w s a
  else if a.function = "claim" then claim p s a
  else if a.function = "get" then get p w s a
  else if a.function = "setConfig" then setConfig w s a
  else if a.function = "changeRewardAddress" then changeRewardAddress p w s a
  else if a.function = "unJail" then unJail p w s a
  else if a.function = "getTotalStaked" then getTotalStaked p s a
  else if a.function = "getTotalStakedTopUpBlsKeys" then getTotalStakedTopUpBlsKeys p s a
  else if a.function = "getBlsKeysStatus" then getBlsKeysStatus p w s a
  else if a.function = "updateStakingV2" then updateStakingV2 p w s a
  else if a.function = "cleanRegisteredData" then cleanRegisteredData p s a
  else if a.function = "pauseUnStakeUnBond" then pauseUnStakeUnBond p s a
  else if a.function = "unPauseUnStakeUnBond" then unPauseStakeUnBond p s a
  else (addReturnMessage s "invalid method to call", .UserError)

/-! ### Concrete fixtures (used by witnesses and counterexamples) -/

/-- A unit gas-cost table. -/
def testGas : GasCost := ⟨1, 1, 1, 1, 1, 1, 1, 1, 1⟩

/-- The configuration of the spec's end-to-end scenarios:
`nodePrice = 2500`, `unJailPrice = 10`, `minUnstake = 1`. -/
def testConfig : ValidatorConfig :=
  { totalSupply := 10000000, minStakeValue := 2500, nodePrice := 2500,
    minStep := 1, unJailPrice := 10 }

/-- Contract parameters for the scenarios (`unBondPeriod = 50`, all three
flags set). -/
def testParams : SCParams :=
  { unBondPeriod := 50, baseConfig := testConfig, validatorSCAddress := [9, 9],
    endOfEpochAddress := [8, 8], walletAddressLen := 2, minUnstakeTokensValue := 1,
    flagEnableStaking := true, flagEnableTopUp := true, flagDoubleKey := true,
    gasCost := testGas }

/-- `testParams` with the top-up flag off (the pre-top-up era). -/
def testParamsV1 : SCParams := { testParams with flagEnableTopUp := false }

/-- A Staking Registry answer: success, no return data. -/
def okResponse : RegistryResponse :=
  { isError := false, errMsg := "", retCode := .Ok, retData := [] }

/-- A benign oracle: every sub-call succeeds, every signature verifies, every
key is fresh and never staked. -/
def testWorld : World :=
  { currentNonce := 260, currentEpoch := 5,
    registry := fun _ => okResponse,
    stakedData := fun _ => some ⟨false, false, 0⟩,
    sigVerify := fun _ _ _ => true,
    isSCAddress := fun _ => false,
    marshal := fun _ => [1], intBytes := fun _ => [],
    decodeConfig := fun _ => none }

/-- An empty contract state with ample gas. -/
def emptyState : EEIState :=
  { records := fun _ => none, unJailFunds := 0, pauseStorage := [],
    ownerStorage := none, storedConfig := none, finish := [], messages := [],
    transfers := [], commands := [], gasLeft := 1000000 }

/-- A state holding exactly one registration record. -/
def stateWith (addr : Bytes) (d : ValidatorDataV2) : EEIState :=
  { emptyState with records := fun a => if a = addr then some d else none }

/-! ## C5 — unStakeTokens -/

/-- **C5.** In the top-up era, for a registered unpaused caller with one
argument `amount` and zero call value: `unStakeTokens` succeeds iff
(`amount ≥ minUnstakeTokensValue` or `amount = TotalStakeValue`) and
`amount ≤ TotalStakeValue`; on success the amount moves from
`TotalStakeValue` to `TotalUnstaked` with a new `UnstakedInfo` entry stamped
with the current nonce; on violation the handler returns `UserError` and no
record is written. -/
theorem C5_unStakeTokens_spec
    (p : SCParams) (w : World) (s : EEIState) (a : ContractCallInput)
    (amountBytes : Bytes) (d : ValidatorDataV2) (amount : Int)
    (hTopUp : p.flagEnableTopUp = true)
    (hVal : a.callValue = 0)
    (hd : getOrCreateRegistrationData s a.callerAddr = d)
    (hReg : ¬ (d.rewardAddress = []))
    (hPause : isUnStakeUnBondPaused s = false)
    (hGas : p.gasCost.unStakeTokens ≤ s.gasLeft)
    (hArgs : a.arguments = [amountBytes])
    (ham : amount = (bytesToNat amountBytes : Int)) :
    ((unStakeTokens p w s a).2 = .Ok ↔
      ((p.minUnstakeTokensValue ≤ amount ∨ amount = d.totalStakeValue) ∧
        amount ≤ d.totalStakeValue)) ∧
    (((p.minUnstakeTokensValue ≤ amount ∨ amount = d.totalStakeValue) ∧
        amount ≤ d.totalStakeValue) →
      (unStakeTokens p w s a).1.records a.callerAddr = some
        { d with
          totalStakeValue := d.totalStakeValue - amount
          totalUnstaked := d.totalUnstaked + amount
          unstakedInfo := d.unstakedInfo ++ [⟨w.currentNonce, amount⟩] }) ∧
    (¬ ((p.minUnstakeTokensValue ≤ amount ∨ amount = d.totalStakeValue) ∧
        amount ≤ d.totalStakeValue) →
      (unStakeTokens p w s a).2 = .UserError ∧
      (unStakeTokens p w s a).1.records = s.records) := by
  subst ham
  have hgas' : ¬ (s.gasLeft < p.gasCost.unStakeTokens) := Nat.not_lt.mpr hGas
  by_cases h1 : p.minUnstakeTokensValue ≤ (bytesToNat amountBytes : Int) ∨
      ((bytesToNat amountBytes : Int) = d.totalStakeValue)
  · by_cases h2 : (bytesToNat amountBytes : Int) ≤ d.totalStakeValue
    · have hc1 : ¬ ((bytesToNat amountBytes : Int) < p.minUnstakeTokensValue ∧
          ¬ ((bytesToNat amountBytes : Int) = d.totalStakeValue)) := by
        rcases h1 with h | h
        · exact fun hc => absurd h (not_le.mpr hc.1)
        · exact fun hc => hc.2 h
      have hc2 : ¬ (d.totalStakeValue < (bytesToNat amountBytes : Int)) := not_lt.mpr h2
      refine ⟨?_, ?_, ?_⟩ <;>
        simp [unStakeTokens, basicCheckForUnStakeUnBond, hTopUp, hVal, hd, hReg, hPause,
          useGas, hgas', hArgs, processUnStakeValue, hc1, hc2, saveRegistrationData,
          setRecord, h1, h2]
    · have hc2 : d.totalStakeValue < (bytesToNat amountBytes : Int) := not_le.mp h2
      by_cases hc1 : ((bytesToNat amountBytes : Int) < p.minUnstakeTokensValue ∧
          ¬ ((bytesToNat amountBytes : Int) = d.totalStakeValue))
      · refine ⟨?_, ?_, ?_⟩ <;>
          simp [unStakeTokens, basicCheckForUnStakeUnBond, hTopUp, hVal, hd, hReg, hPause,
            useGas, hgas', hArgs, processUnStakeValue, hc1, hc2, addReturnMessage, h2]
      · refine ⟨?_, ?_, ?_⟩ <;>
          simp [unStakeTokens, basicCheckForUnStakeUnBond, hTopUp, hVal, hd, hReg, hPause,
            useGas, hgas', hArgs, processUnStakeValue, hc1, hc2, addReturnMessage, h2]
  · have hc1 : ((bytesToNat amountBytes : Int) < p.minUnstakeTokensValue ∧
        ¬ ((bytesToNat amountBytes : Int) = d.totalStakeValue)) := by
      push_neg at h1
      exact ⟨h1.1, h1.2⟩
    refine ⟨?_, ?_, ?_⟩ <;>
      simp [unStakeTokens, basicCheckForUnStakeUnBond, hTopUp, hVal, hd, hReg, hPause,
        useGas, hgas', hArgs, processUnStakeValue, hc1, addReturnMessage, h1]

/-- The record of the C5 witness scenario: 5000 staked. -/
def recC5 : ValidatorDataV2 :=
  { emptyValidatorData with rewardAddress := [1, 1], totalStakeValue := 5000 }

/-- The C5 witness call: `unStakeTokens(3000)`. -/
def callC5 : ContractCallInput :=
  { function := "unStakeTokens", callerAddr := [7, 7], recipientAddr := [9, 9],
    callValue := 0, arguments := [[11, 184]] }

/-- Witness for C5: a registered caller with 5000 staked unstakes 3000 in the
top-up era and the call succeeds. -/
theorem C5_unStakeTokens_witness :
    testParams.flagEnableTopUp = true ∧
    (unStakeTokens testParams testWorld (stateWith [7, 7] recC5) callC5).2 = .Ok :=
  ⟨by decide,
    (C5_unStakeTokens_spec testParams testWorld (stateWith [7, 7] recC5) callC5
      [11, 184] recC5 3000 (by decide) (by decide) (by decide) (by decide)
      (by decide) (by decide) (by decide) (by decide)).1.mpr (by decide)⟩

/-! ## C7 — claim -/

/-- **C7.** `claim` is disabled (`UserError`) once the top-up flag is set;
otherwise, for a registered caller with zero value and enough gas, with
`claimable = TotalStakeValue - LockedStake`: if `claimable ≤ 0` the handler
returns `Ok` leaving storage and transfers untouched; if `claimable > 0` it
stores the record with `TotalStakeValue = LockedStake` and transfers exactly
`claimable` to the caller. -/
theorem C7_claim_spec
    (p : SCParams) (s : EEIState) (a : ContractCallInput) (d : ValidatorDataV2)
    (hVal : a.callValue = 0)
    (hd : getOrCreateRegistrationData s a.callerAddr = d)
    (hReg : ¬ (d.rewardAddress = []))
    (hGas : p.gasCost.claim ≤ s.gasLeft) :
    (p.flagEnableTopUp = true → (claim p s a).2 = .UserError) ∧
    (p.flagEnableTopUp = false →
      ((d.totalStakeValue - d.lockedStake ≤ 0 →
        (claim p s a).2 = .Ok ∧
        (claim p s a).1.records = s.records ∧
        (claim p s a).1.transfers = s.transfers) ∧
      (0 < d.totalStakeValue - d.lockedStake →
        (claim p s a).2 = .Ok ∧
        (claim p s a).1.records a.callerAddr =
          some { d with totalStakeValue := d.lockedStake } ∧
        (claim p s a).1.transfers = s.transfers ++
          [⟨a.callerAddr, a.recipientAddr, d.totalStakeValue - d.lockedStake⟩]))) := by
  have hgas' : ¬ (s.gasLeft < p.gasCost.claim) := Nat.not_lt.mpr hGas
  refine ⟨fun hT => ?_, fun hT => ⟨fun hle => ?_, fun hlt => ?_⟩⟩
  · simp [claim, hT]
  · have : ¬ (0 < d.totalStakeValue - d.lockedStake) := not_lt.mpr hle
    refine ⟨?_, ?_, ?_⟩ <;>
      simp [claim, hT, hVal, hd, hReg, useGas, hgas', hle, this, addReturnMessage]
  · have : ¬ (d.totalStakeValue - d.lockedStake ≤ 0) := not_le.mpr hlt
    refine ⟨?_, ?_, ?_⟩ <;>
      simp [claim, hT, hVal, hd, hReg, useGas, hgas', hlt, this, addReturnMessage,
        saveRegistrationData, setRecord, doTransfer]

/-- The record of the C7 witness scenario: 4000 staked, 2500 locked. -/
def recC7 : ValidatorDataV2 :=
  { emptyValidatorData with
    rewardAddress := [1, 1], totalStakeValue := 4000, lockedStake := 2500 }

/-- The C7 witness call. -/
def callC7 : ContractCallInput :=
  { function := "claim", callerAddr := [7, 7], recipientAddr := [9, 9],
    callValue := 0, arguments := [] }

/-- Witness for C7: pre-top-up, a caller with 4000 staked and 2500 locked
claims and is paid exactly 1500. -/
theorem C7_claim_witness :
    testParamsV1.flagEnableTopUp = false ∧
    (claim testParamsV1 (stateWith [7, 7] recC7) callC7).2 = .Ok ∧
    (claim testParamsV1 (stateWith [7, 7] recC7) callC7).1.transfers =
      [⟨[7, 7], [9, 9], 1500⟩] :=
  have h := ((C7_claim_spec testParamsV1 (stateWith [7, 7] recC7) callC7 recC7
    (by decide) (by decide) (by decide) (by decide)).2 (by decide)).2 (by decide)
  ⟨by decide, h.1, by rw [h.2.2]; decide⟩

/-! ## C9 — cleanRegisteredData -/

/-- The claim's notion of deduplication: keep the first occurrence of each
key, dropping all later copies. -/
def dedupFirst : List Bytes → List Bytes
  | [] => []
  | k :: rest => k :: dedupFirst (rest.filter fun x => ¬ x = k)
termination_by l => l.length
decreasing_by
  exact Nat.lt_succ_of_le (List.length_filter_le _ _)

lemma dedupLoop_flag : ∀ (l seen : List Bytes),
    ((dedupLoop seen l).2 = false → (dedupLoop seen l).1 = l) ∧
    ((dedupLoop seen l).2 = true → (dedupLoop seen l).1.length < l.length)
  | [], seen => by simp [dedupLoop]
  | k :: rest, seen => by
    by_cases hk : k ∈ seen
    · have ih := dedupLoop_flag rest seen
      rcases hr : dedupLoop seen rest with ⟨a, b⟩
      rw [hr] at ih
      simp only [Prod.fst, Prod.snd] at ih
      refine ⟨fun h => ?_, fun _ => ?_⟩
      · simp [dedupLoop, hk, hr] at h
      · cases b
        · have ha : a = rest := ih.1 rfl
          subst ha
          simp [dedupLoop, hk, hr]
        · have := ih.2 rfl
          simp [dedupLoop, hk, hr]
          omega
    · have ih := dedupLoop_flag rest (k :: seen)
      rcases hr : dedupLoop (k :: seen) rest with ⟨a, b⟩
      rw [hr] at ih
      simp only [Prod.fst, Prod.snd] at ih
      refine ⟨fun h => ?_, fun h => ?_⟩
      · simp only [dedupLoop, if_neg hk, hr, Prod.fst, Prod.snd] at h ⊢
        rw [ih.1 h]
      · simp only [dedupLoop, if_neg hk, hr, Prod.fst, Prod.snd] at h ⊢
        have := ih.2 h
        simp only [List.length_cons]
        omega

lemma dedupLoop_eq_dedupFirst : ∀ (l seen : List Bytes),
    (dedupLoop seen l).1 = dedupFirst (l.filter fun x => ¬ x ∈ seen)
  | [], seen => by simp [dedupLoop, dedupFirst]
  | k :: rest, seen => by
    by_cases hk : k ∈ seen
    · have ih := dedupLoop_eq_dedupFirst rest seen
      simp [dedupLoop, hk, List.filter_cons, ih]
    · have ih := dedupLoop_eq_dedupFirst rest (k :: seen)
      have hpred : (rest.filter fun x => ¬ x ∈ (k :: seen)) =
          ((rest.filter fun x => ¬ x ∈ seen).filter fun x => ¬ x = k) := by
        rw [List.filter_filter]
        apply List.filter_congr
        intro x _
        by_cases hxk : x = k
        · subst hxk; simp
        · by_cases hxs : x ∈ seen <;> simp [hxk, hxs]
      simp [dedupLoop, hk, List.filter_cons, ih, hpred, dedupFirst]

lemma mem_dedupFirst : ∀ (l : List Bytes) (x : Bytes), x ∈ dedupFirst l → x ∈ l
  | [], x => by simp [dedupFirst]
  | k :: rest, x => by
    intro hx
    simp only [dedupFirst, List.mem_cons] at hx
    rcases hx with h | h
    · simp [h]
    · have := mem_dedupFirst (rest.filter fun y => ¬ y = k) x h
      simp only [List.mem_filter] at this
      simp [this.1]
termination_by l => l.length
decreasing_by
  exact Nat.lt_succ_of_le (List.length_filter_le _ _)

lemma dedupFirst_nodup : ∀ l : List Bytes, (dedupFirst l).Nodup
  | [] => by simp [dedupFirst]
  | k :: rest => by
    simp only [dedupFirst, List.nodup_cons]
    refine ⟨fun hk => ?_, dedupFirst_nodup _⟩
    have := mem_dedupFirst _ _ hk
    simp at this
termination_by l => l.length
decreasing_by
  exact Nat.lt_succ_of_le (List.length_filter_le _ _)

lemma dedupLoop_nodup_noop : ∀ (l seen : List Bytes), l.Nodup →
    (∀ x ∈ l, ¬ x ∈ seen) → dedupLoop seen l = (l, false)
  | [], seen => by simp [dedupLoop]
  | k :: rest, seen => by
    intro hnd hs
    have hk : ¬ k ∈ seen := hs k (List.mem_cons_self k rest)
    have hrec : dedupLoop (k :: seen) rest = (rest, false) := by
      apply dedupLoop_nodup_noop rest (k :: seen) (List.Nodup.of_cons hnd)
      intro x hx
      have h1 : ¬ x = k := fun he => (List.nodup_cons.mp hnd).1 (he ▸ hx)
      have h2 := hs x (List.mem_cons_of_mem _ hx)
      simp [h1, h2]
    simp [dedupLoop, hk, hrec]

lemma dedupFirst_small (l : List Bytes) (h : l.length ≤ 1) : dedupFirst l = l := by
  match l with
  | [] => simp [dedupFirst]
  | [k] => simp [dedupFirst]
  | k1 :: k2 :: t => simp at h

lemma dedupFirst_idem (l : List Bytes) : dedupFirst (dedupFirst l) = dedupFirst l := by
  have h1 : dedupLoop [] (dedupFirst l) = (dedupFirst l, false) :=
    dedupLoop_nodup_noop _ _ (dedupFirst_nodup l) (by simp)
  have h2 := dedupLoop_eq_dedupFirst (dedupFirst l) []
  rw [h1] at h2
  simpa using h2.symm

lemma clean_run (p : SCParams) (s : EEIState) (a : ContractCallInput)
    (d : ValidatorDataV2)
    (hFlag : p.flagDoubleKey = true)
    (hVal : a.callValue = 0)
    (hArgs : a.arguments = [])
    (hd : getOrCreateRegistrationData s a.callerAddr = d)
    (hGas : p.gasCost.stake ≤ s.gasLeft) :
    cleanRegisteredData p s a =
      if d.blsPubKeys.length ≤ 1 ∨ dedupFirst d.blsPubKeys = d.blsPubKeys then
        ({ s with gasLeft := s.gasLeft - p.gasCost.stake }, .Ok)
      else
        (saveRegistrationData { s with gasLeft := s.gasLeft - p.gasCost.stake }
          a.callerAddr { d with blsPubKeys := dedupFirst d.blsPubKeys }, .Ok) := by
  have hgas1 : ¬ (s.gasLeft < p.gasCost.stake) := Nat.not_lt.mpr hGas
  have hd' : getOrCreateRegistrationData
      { s with gasLeft := s.gasLeft - p.gasCost.stake } a.callerAddr = d := hd
  have hWhole : (dedupLoop ([] : List Bytes) d.blsPubKeys).1 = dedupFirst d.blsPubKeys := by
    simpa using dedupLoop_eq_dedupFirst d.blsPubKeys []
  by_cases hlen : d.blsPubKeys.length ≤ 1
  · rw [if_pos (Or.inl hlen)]
    simp [cleanRegisteredData, hFlag, useGas, hgas1, hVal, hArgs, hd', hlen]
  · rcases hfl : (dedupLoop ([] : List Bytes) d.blsPubKeys).2 with _ | _
    · have heq : dedupFirst d.blsPubKeys = d.blsPubKeys := by
        rw [← hWhole]
        exact (dedupLoop_flag d.blsPubKeys []).1 hfl
      rw [if_pos (Or.inr heq)]
      simp [cleanRegisteredData, hFlag, useGas, hgas1, hVal, hArgs, hd', hlen, hfl]
    · have hne : ¬ (dedupFirst d.blsPubKeys = d.blsPubKeys) := by
        intro he
        have := (dedupLoop_flag d.blsPubKeys []).2 hfl
        rw [hWhole, he] at this
        omega
      rw [if_neg (by simp [hlen, hne])]
      simp [cleanRegisteredData, hFlag, useGas, hgas1, hVal, hArgs, hd', hlen, hfl, hWhole]

/-- **C9.** `cleanRegisteredData` (double-key era, zero value, no arguments)
returns `Ok`, replaces `BlsPubKeys` by its first-occurrence deduplication,
persists the record only when a duplicate was actually removed, and a second
application changes nothing. -/
theorem C9_cleanRegisteredData_spec
    (p : SCParams) (s : EEIState) (a : ContractCallInput) (d : ValidatorDataV2)
    (hFlag : p.flagDoubleKey = true)
    (hVal : a.callValue = 0)
    (hArgs : a.arguments = [])
    (hd : getOrCreateRegistrationData s a.callerAddr = d)
    (hGas : 2 * p.gasCost.stake ≤ s.gasLeft) :
    ((cleanRegisteredData p s a).2 = .Ok) ∧
    (dedupFirst d.blsPubKeys = d.blsPubKeys →
      (cleanRegisteredData p s a).1.records = s.records) ∧
    (¬ (dedupFirst d.blsPubKeys = d.blsPubKeys) →
      (cleanRegisteredData p s a).1.records a.callerAddr =
        some { d with blsPubKeys := dedupFirst d.blsPubKeys }) ∧
    ((cleanRegisteredData p (cleanRegisteredData p s a).1 a).1.records =
      (cleanRegisteredData p s a).1.records) := by
  have hGas1 : p.gasCost.stake ≤ s.gasLeft := by omega
  have h1 := clean_run p s a d hFlag hVal hArgs hd hGas1
  by_cases hc : d.blsPubKeys.length ≤ 1 ∨ dedupFirst d.blsPubKeys = d.blsPubKeys
  · rw [if_pos hc] at h1
    have hdf : dedupFirst d.blsPubKeys = d.blsPubKeys := by
      rcases hc with h | h
      · exact dedupFirst_small _ h
      · exact h
    refine ⟨by rw [h1], fun _ => by rw [h1], fun hne => absurd hdf hne, ?_⟩
    rw [h1]
    have h2 := clean_run p { s with gasLeft := s.gasLeft - p.gasCost.stake } a d hFlag hVal
      hArgs hd (by show p.gasCost.stake ≤ s.gasLeft - p.gasCost.stake; omega)
    rw [if_pos hc] at h2
    rw [h2]
  · push_neg at hc
    rw [if_neg (by simpa using hc)] at h1
    have hne := hc.2
    refine ⟨by rw [h1], fun he => absurd he hne, fun _ => ?_, ?_⟩
    · rw [h1]
      simp [saveRegistrationData, setRecord]
    · rw [h1]
      have hd2 : getOrCreateRegistrationData
          (saveRegistrationData { s with gasLeft := s.gasLeft - p.gasCost.stake }
            a.callerAddr { d with blsPubKeys := dedupFirst d.blsPubKeys }) a.callerAddr =
          { d with blsPubKeys := dedupFirst d.blsPubKeys } := by
        simp [getOrCreateRegistrationData, saveRegistrationData, setRecord]
      have h2 := clean_run p
        (saveRegistrationData { s with gasLeft := s.gasLeft - p.gasCost.stake }
          a.callerAddr { d with blsPubKeys := dedupFirst d.blsPubKeys }) a
        { d with blsPubKeys := dedupFirst d.blsPubKeys } hFlag hVal hArgs hd2 (by
          show p.gasCost.stake ≤ s.gasLeft - p.gasCost.stake
          omega)
      rw [if_pos (Or.inr (by simp [dedupFirst_idem]))] at h2
      rw [h2]

/-- The record of the C9 witness scenario: a duplicated key. -/
def recC9 : ValidatorDataV2 :=
  { emptyValidatorData with
    rewardAddress := [1, 1], blsPubKeys := [[10], [11], [10]] }

/-- The C9 witness call. -/
def callC9 : ContractCallInput :=
  { function := "cleanRegisteredData", callerAddr := [7, 7], recipientAddr := [9, 9],
    callValue := 0, arguments := [] }

/-- Witness for C9: cleaning a record with a duplicated key succeeds and a
second application is a no-op on storage. -/
theorem C9_cleanRegisteredData_witness :
    testParams.flagDoubleKey = true ∧
    (cleanRegisteredData testParams (stateWith [7, 7] recC9) callC9).2 = .Ok ∧
    ((cleanRegisteredData testParams
        (cleanRegisteredData testParams (stateWith [7, 7] recC9) callC9).1 callC9).1.records =
      (cleanRegisteredData testParams (stateWith [7, 7] recC9) callC9).1.records) :=
  have h := C9_cleanRegisteredData_spec testParams (stateWith [7, 7] recC9) callC9 recC9
    (by decide) (by decide) (by decide) (by decide) (by decide)
  ⟨by decide, h.1, h.2.2.2⟩

/-! ## C10 — unStake frame property (pre-top-up) -/

lemma unStakeSC_records (w : World) (reward : Bytes) :
    ∀ (keys : List Bytes) (s : EEIState) (n : Nat),
    (unStakeNodesFromStakingSC w reward keys s n).1.records = s.records
  | [], _, _ => rfl
  | k :: rest, s, n => by
    simp only [unStakeNodesFromStakingSC, executeOnStakingSC]
    split
    · exact unStakeSC_records w reward rest _ _
    · split
      · exact unStakeSC_records w reward rest _ _
      · exact unStakeSC_records w reward rest _ _

lemma unStakeSC_commands (w : World) (reward : Bytes) :
    ∀ (keys : List Bytes) (s : EEIState) (n : Nat),
    (unStakeNodesFromStakingSC w reward keys s n).1.commands =
      s.commands ++ keys.map fun k => "unStake@" ++ hexEncode k ++ "@" ++ hexEncode reward
  | [], s, _ => by simp [unStakeNodesFromStakingSC]
  | k :: rest, s, n => by
    simp only [unStakeNodesFromStakingSC, executeOnStakingSC]
    split
    · rw [unStakeSC_commands w reward rest _ _]
      simp [finishKeyCode, doFinish, addReturnMessage]
    · split
      · rw [unStakeSC_commands w reward rest _ _]
        simp [finishKeyCode, doFinish, addReturnMessage]
      · rw [unStakeSC_commands w reward rest _ _]
        simp

/-- **C10.** When the top-up flag is not set, a successful `unStake` issues
the per-key `unStake@bls@reward` commands to the Staking Registry but never
writes the caller's persisted record: the whole registration store is
unchanged. -/
theorem C10_unStake_frame
    (p : SCParams) (w : World) (s : EEIState) (a : ContractCallInput)
    (d : ValidatorDataV2)
    (hTopUp : p.flagEnableTopUp = false)
    (hPause : isUnStakeUnBondPaused s = false)
    (hVal : a.callValue = 0)
    (hArgs : ¬ (a.arguments = []))
    (hStaking : p.flagEnableStaking = true)
    (hd : getOrCreateRegistrationData s a.callerAddr = d)
    (hGas : p.gasCost.unStake * a.arguments.length ≤ s.gasLeft)
    (hKeys : verifyBLSPublicKeys d a.arguments = true) :
    (unStake p w s a).2 = .Ok ∧
    (unStake p w s a).1.records = s.records ∧
    (unStake p w s a).1.commands = s.commands ++
      a.arguments.map fun k => "unStake@" ++ hexEncode k ++ "@" ++ hexEncode d.rewardAddress := by
  have hgas' : ¬ (s.gasLeft < p.gasCost.unStake * a.arguments.length) := Nat.not_lt.mpr hGas
  have hrec := unStakeSC_records w d.rewardAddress a.arguments
    { s with gasLeft := s.gasLeft - p.gasCost.unStake * a.arguments.length } 0
  have hcmd := unStakeSC_commands w d.rewardAddress a.arguments
    { s with gasLeft := s.gasLeft - p.gasCost.unStake * a.arguments.length } 0
  refine ⟨?_, ?_, ?_⟩ <;>
    simp [unStake, basicChecksForUnStakeNodes, hTopUp, hPause, hVal, hArgs, hStaking, hd,
      useGas, hgas', hKeys, hrec, hcmd]

/-- The record of the C10 witness scenario: one registered key. -/
def recC10 : ValidatorDataV2 :=
  { emptyValidatorData with
    rewardAddress := [1, 1], totalStakeValue := 2500, lockedStake := 2500,
    numRegistered := 1, blsPubKeys := [[170]] }

/-- The C10 witness call: `unStake(bls)`. -/
def callC10 : ContractCallInput :=
  { function := "unStake", callerAddr := [7, 7], recipientAddr := [9, 9],
    callValue := 0, arguments := [[170]] }

/-- Witness for C10: pre-top-up `unStake` of a registered key succeeds and
leaves the registration store untouched. -/
theorem C10_unStake_frame_witness :
    testParamsV1.flagEnableTopUp = false ∧
    (unStake testParamsV1 testWorld (stateWith [7, 7] recC10) callC10).2 = .Ok ∧
    (unStake testParamsV1 testWorld (stateWith [7, 7] recC10) callC10).1.records =
      (stateWith [7, 7] recC10).records :=
  have h := C10_unStake_frame testParamsV1 testWorld (stateWith [7, 7] recC10) callC10
    recC10 (by decide) (by decide) (by decide) (by decide) (by decide) (by decide)
    (by decide) (by decide)
  ⟨by decide, h.1, h.2.1⟩

/-! ## C3 — unJail (V2) -/

/-- The failure predicate of one `unJail@bls` sub-call: host error or non-Ok
return code. -/
def unJailFails (w : World) (k : Bytes) : Bool :=
  (w.registry ("unJail@" ++ hexEncode k)).isError ∨
    ¬ ((w.registry ("unJail@" ++ hexEncode k)).retCode = .Ok)

lemma unJailLoopV2_spec (w : World) (price : Int) :
    ∀ (keys : List Bytes) (s : EEIState) (tb : Int),
    ((unJailLoopV2 w price keys s tb).1.records = s.records) ∧
    ((unJailLoopV2 w price keys s tb).1.unJailFunds = s.unJailFunds) ∧
    ((unJailLoopV2 w price keys s tb).1.transfers = s.transfers) ∧
    ((unJailLoopV2 w price keys s tb).2 =
      tb + price * (keys.filter (unJailFails w)).length) ∧
    ((unJailLoopV2 w price keys s tb).1.finish =
      s.finish ++ (keys.filter (unJailFails w)).foldr
        (fun k acc => k :: [failedCode] :: acc) [])
  | [], s, tb => by simp [unJailLoopV2]
  | k :: rest, s, tb => by
    simp only [unJailLoopV2, executeOnStakingSC]
    split
    · rename_i hfail
      have hf : unJailFails w k = true := by
        simp only [unJailFails]
        simpa using hfail
      have ih := unJailLoopV2_spec w price rest
        (finishKeyCode
          { s with commands := s.commands ++ ["unJail@" ++ hexEncode k] } k failedCode)
        (tb + price)
      refine ⟨ih.1, ih.2.1, ih.2.2.1, ?_, ?_⟩
      · rw [ih.2.2.2.1]
        simp [List.filter_cons, hf]
        ring
      · rw [ih.2.2.2.2]
        simp [List.filter_cons, hf, finishKeyCode, doFinish]
    · rename_i hok
      have hf : unJailFails w k = false := by
        simp only [unJailFails]
        simpa using hok
      have ih := unJailLoopV2_spec w price rest
        { s with commands := s.commands ++ ["unJail@" ++ hexEncode k] } tb
      refine ⟨ih.1, ih.2.1, ih.2.2.1, ?_, ?_⟩
      · rw [ih.2.2.2.1]
        simp [List.filter_cons, hf]
      · rw [ih.2.2.2.2]
        simp [List.filter_cons, hf]

/-- **C3.** Staking-era `unJail` with keys all owned by the caller and
`callValue = UnJailPrice × n`: every key whose registry sub-call fails adds
`UnJailPrice` to `transferBack` and is finish-reported `(key, failed)`; a
positive `transferBack` is refunded; `callValue - transferBack` is added to
`unJailFunds`; the handler returns `Ok`. -/
theorem C3_unJail_spec
    (p : SCParams) (w : World) (s : EEIState) (a : ContractCallInput)
    (d : ValidatorDataV2)
    (hStaking : p.flagEnableStaking = true)
    (hArgs : ¬ (a.arguments = []))
    (hVal : a.callValue = (getConfig p s).unJailPrice * a.arguments.length)
    (hGas : p.gasCost.unJail * a.arguments.length ≤ s.gasLeft)
    (hd : getOrCreateRegistrationData s a.callerAddr = d)
    (hKeys : verifyBLSPublicKeys d a.arguments = true) :
    (unJail p w s a).2 = .Ok ∧
    (unJail p w s a).1.finish = s.finish ++
      (a.arguments.filter (unJailFails w)).foldr (fun k acc => k :: [failedCode] :: acc) [] ∧
    (unJail p w s a).1.transfers =
      (if 0 < (getConfig p s).unJailPrice * ((a.arguments.filter (unJailFails w)).length : Int) then
        s.transfers ++ [⟨a.callerAddr, a.recipientAddr,
          (getConfig p s).unJailPrice * ((a.arguments.filter (unJailFails w)).length : Int)⟩]
      else s.transfers) ∧
    (unJail p w s a).1.unJailFunds = s.unJailFunds +
      (a.callValue -
        (getConfig p s).unJailPrice * ((a.arguments.filter (unJailFails w)).length : Int)) := by
  have hgas' : ¬ (s.gasLeft < p.gasCost.unJail * a.arguments.length) := Nat.not_lt.mpr hGas
  have hd' : getOrCreateRegistrationData
      { s with gasLeft := s.gasLeft - p.gasCost.unJail * a.arguments.length } a.callerAddr = d := hd
  obtain ⟨hl1, hl2, hl3, hl4, hl5⟩ := unJailLoopV2_spec w (getConfig p s).unJailPrice
    a.arguments { s with gasLeft := s.gasLeft - p.gasCost.unJail * a.arguments.length } 0
  by_cases htb : 0 < (getConfig p s).unJailPrice * ((a.arguments.filter (unJailFails w)).length : Int)
  · refine ⟨?_, ?_, ?_, ?_⟩ <;>
      simp [unJail, hStaking, hArgs, hVal, useGas, hgas', hd', hKeys, hl1, hl2,
        hl3, hl4, hl5, addToUnJailFunds, doTransfer, htb]
  · refine ⟨?_, ?_, ?_, ?_⟩ <;>
      simp [unJail, hStaking, hArgs, hVal, useGas, hgas', hd', hKeys, hl1, hl2,
        hl3, hl4, hl5, addToUnJailFunds, doTransfer, htb]

/-- The record of the C3 witness scenario: two owned keys. -/
def recC3 : ValidatorDataV2 :=
  { emptyValidatorData with rewardAddress := [1, 1], blsPubKeys := [[170], [187]] }

/-- A world in which the registry fails exactly the `unJail` of key `bb`. -/
def worldC3 : World :=
  { testWorld with registry := fun c =>
      if c = "unJail@" ++ hexEncode [187] then { okResponse with retCode := .UserError }
      else okResponse }

/-- The C3 witness call: value 20 with two keys at `UnJailPrice = 10`. -/
def callC3 : ContractCallInput :=
  { function := "unJail", callerAddr := [7, 7], recipientAddr := [9, 9],
    callValue := 20, arguments := [[170], [187]] }

/-- Witness for C3: the spec's partial-failure scenario — one of two keys
fails, 10 is refunded, 10 is banked, the handler returns `Ok`. -/
theorem C3_unJail_witness :
    testParams.flagEnableStaking = true ∧
    (unJail testParams worldC3 (stateWith [7, 7] recC3) callC3).2 = .Ok ∧
    (unJail testParams worldC3 (stateWith [7, 7] recC3) callC3).1.transfers =
      [⟨[7, 7], [9, 9], 10⟩] ∧
    (unJail testParams worldC3 (stateWith [7, 7] recC3) callC3).1.unJailFunds = 10 :=
  have h := C3_unJail_spec testParams worldC3 (stateWith [7, 7] recC3) callC3 recC3
    (by decide) (by decide) (by decide) (by decide) (by decide) (by decide)
  ⟨by decide, h.1, by rw [h.2.2.1]; decide, by rw [h.2.2.2]; decide⟩

/-! ## C8 — pause gating -/

/-- An otherwise-empty state with the pause byte set. -/
def pausedState : EEIState := { emptyState with pauseStorage := [1] }

/-- A `unStakeTokens` call by an unregistered caller, used to exhibit a
paused call that fails with a different message. -/
def callC8 : ContractCallInput :=
  { function := "unStakeTokens", callerAddr := [7, 7], recipientAddr := [9, 9],
    callValue := 0, arguments := [[5]] }

/-- **C8, counterexample.** With the pause byte set (top-up era), an
`unStakeTokens` call by an unregistered caller returns `UserError`, but the
paused message is not reported — the not-registered message is — so "every
subsequent call returns `UserError` with the paused message" fails as
stated. -/
theorem C8_pause_counterexample :
    testParams.flagEnableTopUp = true ∧
    isUnStakeUnBondPaused pausedState = true ∧
    (unStakeTokens testParams testWorld pausedState callC8).2 = .UserError ∧
    ¬ (pausedMessage ∈ (unStakeTokens testParams testWorld pausedState callC8).1.messages) := by
  decide

/-- **C8, amended.** In the top-up era: `pauseUnStakeUnBond` and
`unPauseUnStakeUnBond` succeed exactly for the end-of-epoch caller and write
the pause byte; while the byte is set, all six `unStake*`/`unBond*` handlers
return `UserError`; `unStake`/`unStakeNodes`/`unBond`/`unBondNodes` always
report the paused message, while `unStakeTokens`/`unBondTokens` report it
only when their earlier basic checks (zero value, registered caller) pass. -/
theorem C8_pause_spec
    (p : SCParams) (w : World) (s : EEIState)
    (hTopUp : p.flagEnableTopUp = true) :
    (∀ a, ((pauseUnStakeUnBond p s a).2 = .Ok ↔ a.callerAddr = p.endOfEpochAddress)) ∧
    (∀ a, ((unPauseStakeUnBond p s a).2 = .Ok ↔ a.callerAddr = p.endOfEpochAddress)) ∧
    (∀ a, a.callerAddr = p.endOfEpochAddress →
      isUnStakeUnBondPaused (pauseUnStakeUnBond p s a).1 = true) ∧
    (∀ a, a.callerAddr = p.endOfEpochAddress →
      isUnStakeUnBondPaused (unPauseStakeUnBond p s a).1 = false) ∧
    (isUnStakeUnBondPaused s = true →
      (∀ a, (unStake p w s a).2 = .UserError ∧
        pausedMessage ∈ (unStake p w s a).1.messages) ∧
      (∀ a, (unStakeNodes p w s a).2 = .UserError ∧
        pausedMessage ∈ (unStakeNodes p w s a).1.messages) ∧
      (∀ a, (unBond p w s a).2 = .UserError ∧
        pausedMessage ∈ (unBond p w s a).1.messages) ∧
      (∀ a, (unBondNodes p w s a).2 = .UserError ∧
        pausedMessage ∈ (unBondNodes p w s a).1.messages) ∧
      (∀ a, (unStakeTokens p w s a).2 = .UserError) ∧
      (∀ a, (unBondTokens p w s a).2 = .UserError) ∧
      (∀ a, a.callValue = 0 →
        ¬ ((getOrCreateRegistrationData s a.callerAddr).rewardAddress = []) →
        pausedMessage ∈ (unStakeTokens p w s a).1.messages ∧
        pausedMessage ∈ (unBondTokens p w s a).1.messages)) := by
  refine ⟨fun a => ?_, fun a => ?_, fun a ha => ?_, fun a ha => ?_, fun hP => ?_⟩
  · by_cases hc : a.callerAddr = p.endOfEpochAddress <;>
      simp [pauseUnStakeUnBond, hTopUp, hc, addReturnMessage]
  · by_cases hc : a.callerAddr = p.endOfEpochAddress <;>
      simp [unPauseStakeUnBond, hTopUp, hc, addReturnMessage]
  · simp [pauseUnStakeUnBond, hTopUp, ha, isUnStakeUnBondPaused]
  · simp [unPauseStakeUnBond, hTopUp, ha, isUnStakeUnBondPaused]
  · refine ⟨fun a => ?_, fun a => ?_, fun a => ?_, fun a => ?_, fun a => ?_, fun a => ?_,
      fun a hv hr => ?_⟩
    · simp [unStake, hP, addReturnMessage]
    · simp [unStakeNodes, hTopUp, hP, addReturnMessage]
    · simp [unBond, hTopUp, hP, addReturnMessage]
    · simp [unBondNodes, hTopUp, hP, addReturnMessage]
    · by_cases hv : a.callValue = 0
      · by_cases hr : (getOrCreateRegistrationData s a.callerAddr).rewardAddress = []
        · simp [unStakeTokens, basicCheckForUnStakeUnBond, hTopUp, hv, hr, addReturnMessage]
        · simp [unStakeTokens, basicCheckForUnStakeUnBond, hTopUp, hv, hr, hP, addReturnMessage]
      · simp [unStakeTokens, basicCheckForUnStakeUnBond, hTopUp, hv, addReturnMessage]
    · by_cases hv : a.callValue = 0
      · by_cases hr : (getOrCreateRegistrationData s a.callerAddr).rewardAddress = []
        · simp [unBondTokens, basicCheckForUnStakeUnBond, hTopUp, hv, hr, addReturnMessage]
        · simp [unBondTokens, basicCheckForUnStakeUnBond, hTopUp, hv, hr, hP, addReturnMessage]
      · simp [unBondTokens, basicCheckForUnStakeUnBond, hTopUp, hv, addReturnMessage]
    · constructor
      · simp [unStakeTokens, basicCheckForUnStakeUnBond, hTopUp, hv, hr, hP, addReturnMessage]
      · simp [unBondTokens, basicCheckForUnStakeUnBond, hTopUp, hv, hr, hP, addReturnMessage]

/-- A paused-era `unStake` call for the C8 witness. -/
def callC8unStake : ContractCallInput :=
  { function := "unStake", callerAddr := [7, 7], recipientAddr := [9, 9],
    callValue := 0, arguments := [[170]] }

/-- Witness for C8: with the pause byte set, a concrete `unStake` call fails
with `UserError` and the paused message is reported. -/
theorem C8_pause_witness :
    testParams.flagEnableTopUp = true ∧
    (unStake testParams testWorld pausedState callC8unStake).2 = .UserError ∧
    pausedMessage ∈ (unStake testParams testWorld pausedState callC8unStake).1.messages :=
  have h := C8_pause_spec testParams testWorld pausedState (by decide)
  ⟨by decide, (h.2.2.2.2 (by decide)).1 callC8unStake⟩

/-! ## C1 — record deletion on full drain -/

/-- The record of the C1 counterexample: no stake, no locked stake, one
matured pending-unbond entry. -/
def recC1 : ValidatorDataV2 :=
  { emptyValidatorData with
    rewardAddress := [1, 1], totalUnstaked := 5, unstakedInfo := [⟨10, 5⟩] }

/-- The C1 counterexample call: `unBondTokens` with no argument. -/
def callC1 : ContractCallInput :=
  { function := "unBondTokens", callerAddr := [7, 7], recipientAddr := [9, 9],
    callValue := 0, arguments := [] }

/-- **C1, counterexample.** An `unBondTokens` call that drains the last
matured entry of a caller with zero stake and zero locked stake returns `Ok`
and *saves* the record — all three totals are zero, yet the record still
exists under the caller's key, contradicting claim C1 as stated. -/
theorem C1_deletion_counterexample :
    (unBondTokens testParams testWorld (stateWith [7, 7] recC1) callC1).2 = .Ok ∧
    (unBondTokens testParams testWorld (stateWith [7, 7] recC1) callC1).1.records [7, 7] =
      some { recC1 with totalUnstaked := 0, unstakedInfo := [] } ∧
    recC1.totalStakeValue = 0 ∧ recC1.lockedStake = 0 := by
  decide

lemma checkUnBondArguments_error_ne_ok (p : SCParams) (s : EEIState)
    (a : ContractCallInput) (s1 : EEIState) (rc : ReturnCode)
    (h : checkUnBondArguments p s a = (s1, .error rc)) : ¬ rc = .Ok := by
  simp only [checkUnBondArguments] at h
  repeat' split at h
  all_goals
    have h2 := congrArg Prod.snd h
    intro hk
    rw [hk] at h2
    simp at h2

lemma unBondTokensData_error_ne_ok (p : SCParams) (w : World) (s : EEIState)
    (d : ValidatorDataV2) (v : Int) (s1 : EEIState) (rc : ReturnCode)
    (h : unBondTokensFromRegistrationData p w s d v = (s1, .error rc)) : ¬ rc = .Ok := by
  simp only [unBondTokensFromRegistrationData] at h
  repeat' split at h
  all_goals
    have h2 := congrArg Prod.snd h
    intro hk
    rw [hk] at h2
    simp at h2

lemma updateRegistration_stored (p : SCParams) (s : EEIState) (d : ValidatorDataV2)
    (keys : List Bytes) (caller : Bytes)
    (hOk : (updateRegistrationDataAfterUnBond p s d keys caller).2 = .Ok) :
    (d.totalStakeValue = 0 →
      (updateRegistrationDataAfterUnBond p s d keys caller).1.records caller = none) ∧
    (∀ d', (updateRegistrationDataAfterUnBond p s d keys caller).1.records caller = some d' →
      d'.totalStakeValue = d.totalStakeValue) := by
  by_cases hn : d.numRegistered < keys.length
  · simp [updateRegistrationDataAfterUnBond, hn, addReturnMessage] at hOk
  · by_cases hz : d.totalStakeValue = 0
    · refine ⟨fun _ => ?_, fun d' hd' => ?_⟩
      · simp [updateRegistrationDataAfterUnBond, hn, hz, setRecord]
      · simp [updateRegistrationDataAfterUnBond, hn, hz, setRecord] at hd'
    · refine ⟨fun h => absurd h hz, fun d' hd' => ?_⟩
      simp [updateRegistrationDataAfterUnBond, hn, hz, saveRegistrationData, setRecord,
        deleteUnBondedKeys] at hd'
      rw [← hd']

/-- **C1, amended.** The record *is* deleted in the node-unbond paths: after
`unBondNodes` or top-up `unBond` return `Ok`, no record with
`TotalStakeValue = 0` remains under the caller's key (deletion happens
exactly then), and after `unBondV1` returns `Ok` no record with both
`TotalStakeValue = 0` and `LockedStake = 0` remains; `unBondTokens`, by
contrast, saves the drained record even when all three totals are zero
(see the counterexample). -/
theorem C1_deletion_spec (p : SCParams) (w : World) (s : EEIState) (a : ContractCallInput) :
    ((unBondNodes p w s a).2 = .Ok →
      ∀ d', (unBondNodes p w s a).1.records a.callerAddr = some d' →
        ¬ (d'.totalStakeValue = 0)) ∧
    (p.flagEnableTopUp = true →
      (unBond p w s a).2 = .Ok →
      ∀ d', (unBond p w s a).1.records a.callerAddr = some d' →
        ¬ (d'.totalStakeValue = 0)) ∧
    ((unBondV1 p w s a).2 = .Ok →
      ∀ d', (unBondV1 p w s a).1.records a.callerAddr = some d' →
        ¬ (d'.totalStakeValue = 0 ∧ d'.lockedStake = 0)) := by
  refine ⟨?_, ?_, ?_⟩
  · intro hOk d' hd'
    by_cases hT : p.flagEnableTopUp
    · by_cases hP : isUnStakeUnBondPaused s = true
      · simp [unBondNodes, hT, hP, addReturnMessage] at hOk
      · rcases hc : checkUnBondArguments p s a with ⟨s1, e⟩
        rcases e with rc | dd
        · simp [unBondNodes, hT, hP, hc] at hOk
          exact absurd hOk (checkUnBondArguments_error_ne_ok p s a s1 rc hc)
        · rcases hu : updateRegistrationDataAfterUnBond p
            (unBondNodesFromStakingSC w a.arguments s1 []).1 dd
            (unBondNodesFromStakingSC w a.arguments s1 []).2 a.callerAddr with ⟨s2, rc2⟩
          by_cases h2 : rc2 = ReturnCode.Ok
          · subst h2
            have hst := updateRegistration_stored p
              (unBondNodesFromStakingSC w a.arguments s1 []).1 dd
              (unBondNodesFromStakingSC w a.arguments s1 []).2 a.callerAddr (by rw [hu])
            rw [hu] at hst
            simp [unBondNodes, hT, hP, hc, hu] at hd'
            by_cases hz : dd.totalStakeValue = 0
            · rw [hst.1 hz] at hd'
              exact absurd hd' (by simp)
            · intro hz'
              exact hz ((hst.2 d' hd').symm.trans hz')
          · simp [unBondNodes, hT, hP, hc, hu, h2] at hOk
    · simp [unBondNodes, hT, addReturnMessage] at hOk
  · intro hT hOk d' hd'
    by_cases hP : isUnStakeUnBondPaused s = true
    · simp [unBond, hT, hP, addReturnMessage] at hOk
    · rcases hc : checkUnBondArguments p s a with ⟨s1, e⟩
      rcases e with rc | dd
      · simp [unBond, hT, hP, hc] at hOk
        exact absurd hOk (checkUnBondArguments_error_ne_ok p s a s1 rc hc)
      · rcases ht : unBondTokensFromRegistrationData p w
          (unBondNodesFromStakingSC w a.arguments s1 []).1 dd
          ((getConfig p (unBondNodesFromStakingSC w a.arguments s1 []).1).nodePrice *
            ((unBondNodesFromStakingSC w a.arguments s1 []).2.length : Int)) with ⟨s2, e2⟩
        rcases e2 with rc2 | td
        · simp [unBond, hT, hP, hc, ht] at hOk
          exact absurd hOk (unBondTokensData_error_ne_ok p w _ dd _ s2 rc2 ht)
        · rcases hu : updateRegistrationDataAfterUnBond p s2 td.2
            (unBondNodesFromStakingSC w a.arguments s1 []).2 a.callerAddr with ⟨s3, rc3⟩
          by_cases h3 : rc3 = ReturnCode.Ok
          · subst h3
            have hst := updateRegistration_stored p s2 td.2
              (unBondNodesFromStakingSC w a.arguments s1 []).2 a.callerAddr (by rw [hu])
            rw [hu] at hst
            simp [unBond, hT, hP, hc, ht, hu, doTransfer] at hd'
            by_cases hz : td.2.totalStakeValue = 0
            · rw [hst.1 hz] at hd'
              exact absurd hd' (by simp)
            · intro hz'
              exact hz ((hst.2 d' hd').symm.trans hz')
          · simp [unBond, hT, hP, hc, ht, hu, h3] at hOk
  · intro hOk d' hd'
    rcases hc : checkUnBondArguments p s a with ⟨s1, e⟩
    rcases e with rc | dd
    · simp [unBondV1, hc] at hOk
      exact absurd hOk (checkUnBondArguments_error_ne_ok p s a s1 rc hc)
    · by_cases h1 : dd.lockedStake <
        (getConfig p (unBondNodesFromStakingSC w a.arguments s1 []).1).nodePrice *
          ((unBondNodesFromStakingSC w a.arguments s1 []).2.length : Int)
      · simp [unBondV1, hc, h1, addReturnMessage] at hOk
      · by_cases h2 : dd.numRegistered < (unBondNodesFromStakingSC w a.arguments s1 []).2.length
        · simp [unBondV1, hc, h1, h2, addReturnMessage] at hOk
        · by_cases h3 : dd.totalStakeValue -
              (getConfig p (unBondNodesFromStakingSC w a.arguments s1 []).1).nodePrice *
                ((unBondNodesFromStakingSC w a.arguments s1 []).2.length : Int) < 0
          · simp [unBondV1, hc, h1, h2, h3, addReturnMessage] at hOk
          · by_cases h4 : dd.lockedStake -
                (getConfig p (unBondNodesFromStakingSC w a.arguments s1 []).1).nodePrice *
                  ((unBondNodesFromStakingSC w a.arguments s1 []).2.length : Int) = 0 ∧
                dd.totalStakeValue -
                  (getConfig p (unBondNodesFromStakingSC w a.arguments s1 []).1).nodePrice *
                    ((unBondNodesFromStakingSC w a.arguments s1 []).2.length : Int) = 0
            · simp [unBondV1, hc, h1, h2, h3, h4, setRecord, doTransfer] at hd'
            · simp [unBondV1, hc, h1, h2, h3, h4, saveRegistrationData, setRecord,
                doTransfer, deleteUnBondedKeys] at hd'
              intro hcon
              rw [← hd'] at hcon
              exact h4 ⟨hcon.2, hcon.1⟩

/-- The record of the C1 witness scenario: zero stake, one registered key. -/
def recC1b : ValidatorDataV2 :=
  { emptyValidatorData with
    rewardAddress := [1, 1], lockedStake := 2500, numRegistered := 1,
    blsPubKeys := [[170]] }

/-- The C1 witness call: `unBondNodes(bls)`. -/
def callC1b : ContractCallInput :=
  { function := "unBondNodes", callerAddr := [7, 7], recipientAddr := [9, 9],
    callValue := 0, arguments := [[170]] }

/-- Witness for C1 (amended): a concrete `unBondNodes` run returns `Ok`, and
by the amended theorem any record left for the caller would have nonzero
`TotalStakeValue`; here the record is in fact deleted. -/
theorem C1_deletion_witness :
    (unBondNodes testParams testWorld (stateWith [7, 7] recC1b) callC1b).2 = .Ok ∧
    (unBondNodes testParams testWorld (stateWith [7, 7] recC1b) callC1b).1.records [7, 7] =
      none ∧
    (∀ d', (unBondNodes testParams testWorld (stateWith [7, 7] recC1b) callC1b).1.records
        callC1b.callerAddr = some d' → ¬ (d'.totalStakeValue = 0)) :=
  ⟨by decide, by decide,
    (C1_deletion_spec testParams testWorld (stateWith [7, 7] recC1b) callC1b).1 (by decide)⟩

/-! ## C4 — stake over-funding check -/

/-- The `get@bls` existence-probe command sent by `getNewValidKeys`. -/
def probeCmd (k : Bytes) : String := "get@" ++ hexEncode k

/-- The `register@bls@reward@owner@` command sent by `registerBLSKeys`. -/
def registerCmd (reward owner k : Bytes) : String :=
  "register@" ++ hexEncode k ++ "@" ++ hexEncode reward ++ "@" ++ hexEncode owner ++ "@"

/-- The BLS keys of a `stake` call's arguments, in order (all signatures
assumed valid). -/
def stakeBlsKeys (args : List Bytes) : List Bytes :=
  (keyPairs args (bytesToUint64 (args.headD []))).map Prod.fst

/-- The registration record as `stake` has shaped it right before
`registerBLSKeys`: call value added, reward address initialised for a fresh
caller, `maxStakePerNode` and epoch refreshed. -/
def stakeRegData (w : World) (a : ContractCallInput) (d : ValidatorDataV2) :
    ValidatorDataV2 :=
  let d := { d with totalStakeValue := d.totalStakeValue + a.callValue }
  let isAlreadyRegistered := ¬ (d.rewardAddress = [])
  let d :=
    if ¬ isAlreadyRegistered then { d with rewardAddress := a.callerAddr } else d
  { d with maxStakePerNode := d.totalStakeValue, epoch := w.currentEpoch }

/-- When every probed key is fresh in the registry, the probe loop succeeds
and only appends the `get@` commands. -/
lemma getNewValidKeysProbe_ok (w : World) :
    ∀ (keys : List Bytes) (s : EEIState),
    (∀ k ∈ keys, ¬ ((w.registry (probeCmd k)).isError = true) ∧
      ((w.registry (probeCmd k)).retData = [] ∨ (w.registry (probeCmd k)).retData.headD [] = [])) →
    getNewValidKeysProbe w keys s =
      ({ s with commands := s.commands ++ keys.map probeCmd }, true)
  | [], s => by simp [getNewValidKeysProbe]
  | k :: rest, s => by
    intro h
    have hk := h k (by simp)
    have ih := getNewValidKeysProbe_ok w rest
      { s with commands := s.commands ++ [probeCmd k] }
      (fun x hx => h x (by simp [hx]))
    simp only [getNewValidKeysProbe, executeOnStakingSC, probeCmd] at *
    rw [if_neg (by
      push_neg
      refine ⟨by simpa using hk.1, fun hne => ?_⟩
      rcases hk.2 with h1 | h1
      · exact absurd h1 hne
      · exact h1)]
    rw [ih]
    simp [probeCmd]

/-- When every signature verifies, the verification loop keeps the state and
returns the keys in order with no failure report. -/
lemma verifyKeysLoop_ok (w : World) (pk : Bytes) :
    ∀ (pairs : List (Bytes × Bytes)) (s : EEIState),
    (∀ pr ∈ pairs, w.sigVerify pk pr.2 pr.1 = true) →
    verifyKeysLoop w pk pairs s = (s, pairs.map Prod.fst, [])
  | [], s => by simp [verifyKeysLoop]
  | pr :: rest, s => by
    intro h
    rcases pr with ⟨bk, sg⟩
    have hk := h (bk, sg) (by simp)
    have ih := verifyKeysLoop_ok w pk rest s (fun x hx => h x (by simp [hx]))
    simp only [verifyKeysLoop, hk, if_true, ih]
    simp

/-- When the registry accepts every `register@` command, the register loop
appends those commands and adds the keys to the record. -/
lemma registerKeysLoop_ok (w : World) (reward owner : Bytes) :
    ∀ (keys : List Bytes) (s : EEIState) (d : ValidatorDataV2),
    (∀ k ∈ keys, ¬ ((w.registry (registerCmd reward owner k)).isError = true) ∧
      (w.registry (registerCmd reward owner k)).retCode = .Ok) →
    registerKeysLoop w reward owner keys s d =
      ({ s with commands := s.commands ++ keys.map (registerCmd reward owner) },
       { d with blsPubKeys := d.blsPubKeys ++ keys }, .done)
  | [], s, d => by simp [registerKeysLoop]
  | k :: rest, s, d => by
    intro h
    have hk := h k (by simp)
    have ih := registerKeysLoop_ok w reward owner rest
      { s with commands := s.commands ++ [registerCmd reward owner k] }
      { d with blsPubKeys := d.blsPubKeys ++ [k] }
      (fun x hx => h x (by simp [hx]))
    simp only [registerKeysLoop, executeOnStakingSC, registerCmd] at *
    rw [if_neg (by simpa using hk.1), if_neg (by simp [hk.2])]
    rw [ih]
    simp [registerCmd]

/-- The happy path of `registerBLSKeys`: valid arity, valid signatures, fresh
keys and an accepting registry. The probes and `register@` commands are
issued, the new keys are appended to the record, and the verified key list is
returned. -/
lemma registerBLSKeys_ok (w : World) (s : EEIState) (d : ValidatorDataV2)
    (pk owner : Bytes) (args : List Bytes)
    (hArity : isNumArgsCorrectToStake args = true)
    (hSig : ∀ pr ∈ keyPairs args (bytesToUint64 (args.headD [])),
      w.sigVerify pk pr.2 pr.1 = true)
    (hProbe : ∀ k ∈ newKeysOf d.blsPubKeys (stakeBlsKeys args),
      ¬ ((w.registry (probeCmd k)).isError = true) ∧
      ((w.registry (probeCmd k)).retData = [] ∨ (w.registry (probeCmd k)).retData.headD [] = []))
    (hReg : ∀ k ∈ newKeysOf d.blsPubKeys (stakeBlsKeys args),
      ¬ ((w.registry (registerCmd d.rewardAddress owner k)).isError = true) ∧
      (w.registry (registerCmd d.rewardAddress owner k)).retCode = .Ok) :
    registerBLSKeys w s d pk owner args =
      ({ s with commands := s.commands ++
          (newKeysOf d.blsPubKeys (stakeBlsKeys args)).map probeCmd ++
          (newKeysOf d.blsPubKeys (stakeBlsKeys args)).map (registerCmd d.rewardAddress owner) },
       { d with blsPubKeys := d.blsPubKeys ++ newKeysOf d.blsPubKeys (stakeBlsKeys args) },
       .ok (stakeBlsKeys args)) := by
  have hm : ¬ (args.length < bytesToUint64 (args.headD []) + 1) := by
    simp only [isNumArgsCorrectToStake, decide_eq_true_eq] at hArity
    omega
  have hv := verifyKeysLoop_ok w pk (keyPairs args (bytesToUint64 (args.headD []))) s hSig
  have hp := getNewValidKeysProbe_ok w (newKeysOf d.blsPubKeys (stakeBlsKeys args)) s hProbe
  have hr := registerKeysLoop_ok w d.rewardAddress owner
    (newKeysOf d.blsPubKeys (stakeBlsKeys args))
    { s with commands := s.commands ++
        (newKeysOf d.blsPubKeys (stakeBlsKeys args)).map probeCmd }
    d hReg
  simp only [registerBLSKeys]
  rw [if_neg hm]
  simp only [getVerifiedBLSKeysFromArgs, hv, getNewValidKeys]
  norm_num
  simp only [stakeBlsKeys] at hp hr
  norm_num at hp hr
  rw [hp]
  dsimp only
  rw [if_pos rfl]
  dsimp only
  rw [hr]
  simp [stakeBlsKeys, List.append_assoc]

/-- **C4.** A `stake` call with node arguments on which every check up to key
registration passes, but whose owner record ends up with more BLS keys than
`TotalStakeValue / NodePrice`, returns `OutOfFunds` and does not save the
record; the claim's no-mutation part fails: before the funding check the call
has already issued the `get@` probes and the `register@` commands for the new
keys to the Staking Registry, and they stay in the call's command log. -/
theorem C4_stake_overfunded (p : SCParams) (w : World) (s : EEIState)
    (a : ContractCallInput) (d dm : ValidatorDataV2)
    (hGas : p.gasCost.stake ≤ s.gasLeft)
    (hFlag : p.flagEnableStaking = true)
    (hd : getOrCreateRegistrationData s a.callerAddr = d)
    (hdm : stakeRegData w a d = dm)
    (hMin : ¬ (d.totalStakeValue + a.callValue < (getConfig p s).nodePrice))
    (hArgsNe : ¬ (a.arguments = []))
    (hArity : isNumArgsCorrectToStake a.arguments = true)
    (hMax : ¬ (bytesToUint64 (a.arguments.headD []) = 0))
    (hGas2 : ¬ (s.gasLeft - p.gasCost.stake <
      (bytesToUint64 (a.arguments.headD []) - 1) * p.gasCost.stake))
    (hSig : ∀ pr ∈ keyPairs a.arguments (bytesToUint64 (a.arguments.headD [])),
      w.sigVerify a.callerAddr pr.2 pr.1 = true)
    (hProbe : ∀ k ∈ newKeysOf dm.blsPubKeys (stakeBlsKeys a.arguments),
      ¬ ((w.registry (probeCmd k)).isError = true) ∧
      ((w.registry (probeCmd k)).retData = [] ∨
       (w.registry (probeCmd k)).retData.headD [] = []))
    (hReg : ∀ k ∈ newKeysOf dm.blsPubKeys (stakeBlsKeys a.arguments),
      ¬ ((w.registry (registerCmd dm.rewardAddress a.callerAddr k)).isError = true) ∧
      (w.registry (registerCmd dm.rewardAddress a.callerAddr k)).retCode = .Ok)
    (hDouble : ¬ (p.flagDoubleKey = true ∧
      checkDoubleBLSKeys (stakeBlsKeys a.arguments) = true))
    (hOver : (Int.ediv dm.totalStakeValue (getConfig p s).nodePrice).toNat % 2 ^ 64 <
      (dm.blsPubKeys ++ newKeysOf dm.blsPubKeys (stakeBlsKeys a.arguments)).length) :
    (stake p w s a).2 = .OutOfFunds ∧
    (stake p w s a).1.records = s.records ∧
    (stake p w s a).1.commands = s.commands ++
      (newKeysOf dm.blsPubKeys (stakeBlsKeys a.arguments)).map probeCmd ++
      (newKeysOf dm.blsPubKeys (stakeBlsKeys a.arguments)).map
        (registerCmd dm.rewardAddress a.callerAddr) := by
  simp only [stake, useGas]
  rw [if_neg (by omega)]
  dsimp only
  rw [if_neg (by simp [hFlag])]
  have hd' : getOrCreateRegistrationData
      { s with gasLeft := s.gasLeft - p.gasCost.stake } a.callerAddr = d := hd
  simp only [hd']
  have hMin' : ¬ (d.totalStakeValue + a.callValue <
      (getConfig p { s with gasLeft := s.gasLeft - p.gasCost.stake }).nodePrice) := hMin
  rw [if_neg (by intro h; exact hMin' h.1)]
  rw [if_neg hArgsNe]
  rw [if_neg (by simp [hArity])]
  rw [if_neg hMax]
  rw [if_neg (by simpa using hGas2)]
  dsimp only
  simp only [stakeRegData] at hdm
  rw [hdm]
  rw [registerBLSKeys_ok w _ dm a.callerAddr a.callerAddr a.arguments hArity hSig hProbe hReg]
  dsimp only
  rw [if_neg hDouble]
  have hOver' : (Int.ediv dm.totalStakeValue
      (getConfig p { s with gasLeft := s.gasLeft - p.gasCost.stake }).nodePrice).toNat % 2 ^ 64 <
      (dm.blsPubKeys ++ newKeysOf dm.blsPubKeys (stakeBlsKeys a.arguments)).length := hOver
  rw [if_pos hOver']
  refine ⟨rfl, rfl, ?_⟩
  dsimp only [addReturnMessage]

/-- An under-funded `stake` call: value 4000 with two BLS keys at node price
2500. -/
def callC4 : ContractCallInput :=
  { function := "stake", callerAddr := [7, 7], recipientAddr := [9, 9],
    callValue := 4000, arguments := [[2], [170], [1], [187], [2]] }

/-- The record `stake` shapes for the fresh caller of `callC4`. -/
def dmC4 : ValidatorDataV2 :=
  { emptyValidatorData with
    rewardAddress := [7, 7]
    totalStakeValue := 4000
    maxStakePerNode := 4000
    epoch := 5 }

/-- Counterexample for C4's no-mutation part: the concrete under-funded call
(value 4000, two keys, node price 2500) does return `OutOfFunds`, yet the
`register@` command for the first key was issued to the Staking Registry
during the call. -/
theorem C4_stake_overfunded_counterexample :
    (stake testParams testWorld emptyState callC4).2 = .OutOfFunds ∧
    "register@aa@0707@0707@" ∈ (stake testParams testWorld emptyState callC4).1.commands := by
  decide

/-- Witness for C4 (amended): the under-funded scenario returns `OutOfFunds`,
leaves the records untouched, and logs exactly the probe and register
commands of the two new keys. -/
theorem C4_stake_overfunded_witness :
    (stake testParams testWorld emptyState callC4).2 = .OutOfFunds ∧
    (stake testParams testWorld emptyState callC4).1.records = emptyState.records ∧
    (stake testParams testWorld emptyState callC4).1.commands = emptyState.commands ++
      (newKeysOf dmC4.blsPubKeys (stakeBlsKeys callC4.arguments)).map probeCmd ++
      (newKeysOf dmC4.blsPubKeys (stakeBlsKeys callC4.arguments)).map
        (registerCmd dmC4.rewardAddress callC4.callerAddr) :=
  C4_stake_overfunded testParams testWorld emptyState callC4 emptyValidatorData dmC4
    (by decide) (by decide) (by decide) (by decide) (by decide) (by decide)
    (by decide) (by decide) (by decide) (by decide) (by decide) (by decide)
    (by decide) (by decide)

/-! ## C2 — unBondTokens maturity algorithm -/

/-- Sum of the values of a list of `UnstakedValue` entries. -/
def sumUnstaked (l : List UnstakedValue) : Int :=
  (l.map (fun e => e.unstakedValue)).sum

/-- Whether an entry has passed the unbond period at `cur` (uint64 wrap
included), as `canUnBond` computes it. -/
def maturedB (cur period : Nat) (e : UnstakedValue) : Bool :=
  canUnBond cur period e.unstakedNonce

/-- Without wrap (`nonce ≤ cur < 2^64`), `canUnBond` is plain subtraction. -/
lemma canUnBond_iff (cur period nonce : Nat) (h1 : nonce ≤ cur)
    (h2 : cur < 2 ^ 64) :
    canUnBond cur period nonce = true ↔ period ≤ cur - nonce := by
  simp only [canUnBond, decide_eq_true_eq]
  omega

/-- Under a pairwise anti-monotone predicate, `takeWhile` is `filter`. -/
lemma takeWhile_eq_filter_of_pairwise {α} (p : α → Bool) :
    ∀ l : List α, l.Pairwise (fun a b => p b = true → p a = true) →
    l.takeWhile p = l.filter p
  | [], _ => rfl
  | x :: xs, h => by
    rcases List.pairwise_cons.mp h with ⟨hx, hxs⟩
    by_cases hp : p x = true
    · simp [List.takeWhile_cons, List.filter_cons, hp,
        takeWhile_eq_filter_of_pairwise p xs hxs]
    · have hall : ∀ b ∈ xs, ¬ p b = true := fun b hb hpb => hp (hx b hb hpb)
      simp [List.takeWhile_cons, List.filter_cons, hp,
        List.filter_eq_nil_iff.mpr hall]

/-- Under a pairwise anti-monotone predicate, `dropWhile` keeps exactly the
failing entries. -/
lemma dropWhile_eq_filter_not_of_pairwise {α} (p : α → Bool) :
    ∀ l : List α, l.Pairwise (fun a b => p b = true → p a = true) →
    l.dropWhile p = l.filter (fun x => !(p x))
  | [], _ => rfl
  | x :: xs, h => by
    rcases List.pairwise_cons.mp h with ⟨hx, hxs⟩
    by_cases hp : p x = true
    · simp [List.dropWhile_cons, List.filter_cons, hp,
        dropWhile_eq_filter_not_of_pairwise p xs hxs]
    · have hall : ∀ b ∈ xs, ¬ p b = true := fun b hb hpb => hp (hx b hb hpb)
      have hself : xs.filter (fun x => !(p x)) = xs := by
        rw [List.filter_eq_self]
        intro b hb
        simp [hall b hb]
      simp [List.dropWhile_cons, List.filter_cons, hp, hself]

/-- Dropping the `takeWhile` prefix is `dropWhile`. -/
lemma drop_takeWhile_length {α} (p : α → Bool) :
    ∀ l : List α, l.drop (l.takeWhile p).length = l.dropWhile p
  | [] => rfl
  | x :: xs => by
    by_cases hp : p x = true
    · simp [List.takeWhile_cons, List.dropWhile_cons, hp,
        drop_takeWhile_length p xs]
    · simp [List.takeWhile_cons, List.dropWhile_cons, hp]

/-- With no stop ceiling the scan consumes exactly the matured prefix. -/
lemma scanLoop_noStop (cur period : Nat) (v : Int) :
    ∀ (l : List UnstakedValue) (total : Int) (idx : Nat),
    scanLoop cur period false v l total idx =
      (total + sumUnstaked (l.takeWhile (maturedB cur period)),
       idx + (l.takeWhile (maturedB cur period)).length, ⟨0, 0⟩)
  | [], total, idx => by simp [scanLoop, sumUnstaked]
  | e :: rest, total, idx => by
    by_cases hm : canUnBond cur period e.unstakedNonce = true
    · have ih := scanLoop_noStop cur period v rest (total + e.unstakedValue) (idx + 1)
      simp only [scanLoop]
      rw [if_pos hm, if_neg (by simp), ih]
      simp only [List.takeWhile_cons, maturedB, hm, if_pos rfl]
      simp [sumUnstaked]
      constructor
      · ring
      · omega
    · simp only [scanLoop]
      rw [if_neg hm]
      simp only [List.takeWhile_cons, maturedB]
      rw [if_neg hm]
      simp [sumUnstaked]

/-- With a ceiling no prefix sum reaches, the scan also consumes exactly the
matured prefix. -/
lemma scanLoop_stop_low (cur period : Nat) (v : Int) :
    ∀ (l : List UnstakedValue) (total : Int) (idx : Nat),
    (∀ j, 1 ≤ j → j ≤ (l.takeWhile (maturedB cur period)).length →
      total + sumUnstaked ((l.takeWhile (maturedB cur period)).take j) < v) →
    scanLoop cur period true v l total idx =
      (total + sumUnstaked (l.takeWhile (maturedB cur period)),
       idx + (l.takeWhile (maturedB cur period)).length, ⟨0, 0⟩)
  | [], total, idx => by simp [scanLoop, sumUnstaked]
  | e :: rest, total, idx => by
    intro hlow
    by_cases hm : canUnBond cur period e.unstakedNonce = true
    · have htw : (e :: rest).takeWhile (maturedB cur period) =
          e :: rest.takeWhile (maturedB cur period) := by
        simp only [List.takeWhile_cons, maturedB]
        rw [if_pos hm]
      rw [htw] at hlow
      have h1 : total + e.unstakedValue < v := by
        have := hlow 1 (by omega) (by simp)
        simpa [sumUnstaked] using this
      have ih := scanLoop_stop_low cur period v rest (total + e.unstakedValue) (idx + 1)
        (by
          intro j hj1 hj2
          have := hlow (j + 1) (by omega) (by simp; omega)
          simpa [sumUnstaked, List.take_succ_cons, add_assoc] using this)
      simp only [scanLoop]
      rw [if_pos hm, if_neg (by
        intro hcon
        exact absurd hcon.2 (by exact not_le.mpr h1)), ih]
      rw [htw]
      simp [sumUnstaked]
      constructor
      · ring
      · omega
    · simp only [scanLoop]
      rw [if_neg hm]
      simp only [List.takeWhile_cons, maturedB]
      rw [if_neg hm]
      simp [sumUnstaked]

/-- When the running sum first reaches the ceiling at offset `k` of the
matured prefix, the scan stops there, caps the total and returns the split
entry. -/
lemma scanLoop_stop_reach (cur period : Nat) (v : Int) :
    ∀ (l : List UnstakedValue) (total : Int) (idx : Nat) (k : Nat)
    (hk : k < (l.takeWhile (maturedB cur period)).length),
    v ≤ total + sumUnstaked ((l.takeWhile (maturedB cur period)).take (k + 1)) →
    (∀ j ≤ k, total + sumUnstaked ((l.takeWhile (maturedB cur period)).take j) < v) →
    scanLoop cur period true v l total idx =
      (v, idx + k + 1,
       ⟨((l.takeWhile (maturedB cur period)).getD k ⟨0, 0⟩).unstakedNonce,
        total + sumUnstaked ((l.takeWhile (maturedB cur period)).take (k + 1)) - v⟩)
  | [], total, idx, k, hk => by simp at hk
  | e :: rest, total, idx, k, hk => by
    intro hreach hmin
    by_cases hm : canUnBond cur period e.unstakedNonce = true
    · have htw : (e :: rest).takeWhile (maturedB cur period) =
          e :: rest.takeWhile (maturedB cur period) := by
        simp only [List.takeWhile_cons, maturedB]
        rw [if_pos hm]
      rw [htw] at hk hreach hmin ⊢
      match k, hk with
      | 0, hk => 
        simp only [scanLoop]
        rw [if_pos hm, if_pos (by
          refine ⟨trivial, ?_⟩
          simpa [sumUnstaked] using hreach)]
        simp [sumUnstaked]
      | k + 1, hk =>
        have h1 : total + e.unstakedValue < v := by
          have := hmin 1 (by omega)
          simpa [sumUnstaked] using this
        have hk' : k < (rest.takeWhile (maturedB cur period)).length := by
          simpa using hk
        have ih := scanLoop_stop_reach cur period v rest (total + e.unstakedValue)
          (idx + 1) k hk'
          (by
            have := hreach
            simpa [sumUnstaked, List.take_succ_cons, add_assoc] using this)
          (by
            intro j hj
            have := hmin (j + 1) (by omega)
            simpa [sumUnstaked, List.take_succ_cons, add_assoc] using this)
        simp only [scanLoop]
        rw [if_pos hm, if_neg (by
          intro hcon
          exact absurd hcon.2 (by exact not_le.mpr h1)), ih]
        simp [sumUnstaked, List.take_succ_cons]
        constructor
        · omega
        · ring
    · exfalso
      have : (e :: rest).takeWhile (maturedB cur period) = [] := by
        simp only [List.takeWhile_cons, maturedB]
        rw [if_neg hm]
      rw [this] at hk
      simp at hk

/-- On a sorted, non-wrapping record maturity is anti-monotone along the
list. -/
lemma matured_pairwise (cur period : Nat) (l : List UnstakedValue)
    (hCur : cur < 2 ^ 64)
    (hBound : ∀ e ∈ l, e.unstakedNonce ≤ cur)
    (hSorted : l.Pairwise (fun a b => a.unstakedNonce ≤ b.unstakedNonce)) :
    l.Pairwise (fun a b =>
      maturedB cur period b = true → maturedB cur period a = true) := by
  refine List.Pairwise.imp_of_mem ?_ hSorted
  intro a b ha hb hle hmb
  rw [maturedB, canUnBond_iff _ _ _ (hBound b hb) hCur] at hmb
  rw [maturedB, canUnBond_iff _ _ _ (hBound a ha) hCur]
  omega

/-- No-ceiling / ceiling-never-reached case of
`unBondTokensFromRegistrationData` on a sorted, non-wrapping record: exactly
the matured entries are consumed. -/
lemma unBondTokensData_noReach (p : SCParams) (w : World) (s : EEIState)
    (d : ValidatorDataV2) (v : Int)
    (hCur : w.currentNonce < 2 ^ 64)
    (hBound : ∀ e ∈ d.unstakedInfo, e.unstakedNonce ≤ w.currentNonce)
    (hSorted : d.unstakedInfo.Pairwise
      (fun a b => a.unstakedNonce ≤ b.unstakedNonce))
    (h1 : v ≤ 0 ∨ (∀ j, 1 ≤ j →
      j ≤ (d.unstakedInfo.filter (maturedB w.currentNonce p.unBondPeriod)).length →
      sumUnstaked ((d.unstakedInfo.filter (maturedB w.currentNonce p.unBondPeriod)).take j) < v)) :
    unBondTokensFromRegistrationData p w s d v =
      if d.totalUnstaked -
          sumUnstaked (d.unstakedInfo.filter (maturedB w.currentNonce p.unBondPeriod)) < 0 then
        (addReturnMessage s "too much requested to unBond", .error .UserError)
      else
        (s, .ok (sumUnstaked (d.unstakedInfo.filter (maturedB w.currentNonce p.unBondPeriod)),
          { d with
            unstakedInfo :=
              d.unstakedInfo.filter (fun e => !(maturedB w.currentNonce p.unBondPeriod e))
            totalUnstaked := d.totalUnstaked -
              sumUnstaked (d.unstakedInfo.filter (maturedB w.currentNonce p.unBondPeriod)) })) := by
  have htf := takeWhile_eq_filter_of_pairwise (maturedB w.currentNonce p.unBondPeriod)
    d.unstakedInfo (matured_pairwise _ _ _ hCur hBound hSorted)
  have hdf := dropWhile_eq_filter_not_of_pairwise (maturedB w.currentNonce p.unBondPeriod)
    d.unstakedInfo (matured_pairwise _ _ _ hCur hBound hSorted)
  simp only [unBondTokensFromRegistrationData]
  by_cases hv : 0 < v
  · have hlow := h1.resolve_left (by omega)
    rw [← htf] at hlow
    rw [show decide (0 < v) = true from decide_eq_true hv]
    rw [scanLoop_stop_low w.currentNonce p.unBondPeriod v d.unstakedInfo 0 0
      (by intro j hj1 hj2; simpa using hlow j hj1 hj2)]
    dsimp only
    simp only [zero_add]
    rw [if_neg (lt_irrefl (0 : Int))]
    rw [drop_takeWhile_length, hdf, htf]
  · rw [show decide (0 < v) = false from decide_eq_false hv]
    rw [scanLoop_noStop]
    dsimp only
    simp only [zero_add]
    rw [if_neg (lt_irrefl (0 : Int))]
    rw [drop_takeWhile_length, hdf, htf]

/-- Ceiling-reached case of `unBondTokensFromRegistrationData` on a sorted,
non-wrapping record: the total is capped and the `k`-th matured entry is
split in place. -/
lemma unBondTokensData_reach (p : SCParams) (w : World) (s : EEIState)
    (d : ValidatorDataV2) (v : Int) (k : Nat)
    (hCur : w.currentNonce < 2 ^ 64)
    (hBound : ∀ e ∈ d.unstakedInfo, e.unstakedNonce ≤ w.currentNonce)
    (hSorted : d.unstakedInfo.Pairwise
      (fun a b => a.unstakedNonce ≤ b.unstakedNonce))
    (hv : 0 < v)
    (hk : k < (d.unstakedInfo.filter (maturedB w.currentNonce p.unBondPeriod)).length)
    (hreach : v ≤ sumUnstaked
      ((d.unstakedInfo.filter (maturedB w.currentNonce p.unBondPeriod)).take (k + 1)))
    (hmin : ∀ j ≤ k, sumUnstaked
      ((d.unstakedInfo.filter (maturedB w.currentNonce p.unBondPeriod)).take j) < v) :
    unBondTokensFromRegistrationData p w s d v =
      if d.totalUnstaked - v < 0 then
        (addReturnMessage s "too much requested to unBond", .error .UserError)
      else
        (s, .ok (v,
          { d with
            unstakedInfo :=
              if 0 < sumUnstaked
                  ((d.unstakedInfo.filter (maturedB w.currentNonce p.unBondPeriod)).take (k + 1)) - v then
                (d.unstakedInfo.set k
                  ⟨((d.unstakedInfo.filter (maturedB w.currentNonce p.unBondPeriod)).getD k ⟨0, 0⟩).unstakedNonce,
                   sumUnstaked
                     ((d.unstakedInfo.filter (maturedB w.currentNonce p.unBondPeriod)).take (k + 1)) - v⟩).drop k
              else d.unstakedInfo.drop (k + 1)
            totalUnstaked := d.totalUnstaked - v })) := by
  have htf := takeWhile_eq_filter_of_pairwise (maturedB w.currentNonce p.unBondPeriod)
    d.unstakedInfo (matured_pairwise _ _ _ hCur hBound hSorted)
  rw [← htf] at hk hreach hmin ⊢
  simp only [unBondTokensFromRegistrationData]
  rw [show decide (0 < v) = true from decide_eq_true hv]
  rw [scanLoop_stop_reach w.currentNonce p.unBondPeriod v d.unstakedInfo 0 0 k hk
    (by simpa using hreach) (by intro j hj; simpa using hmin j hj)]
  dsimp only
  simp only [zero_add, Nat.add_sub_cancel]

/-- The benign oracle at a given block nonce. -/
def worldAt (n : Nat) : World := { testWorld with currentNonce := n }

/-- A registered caller with 5000 staked and nothing unstaked yet. -/
def recC2 : ValidatorDataV2 :=
  { emptyValidatorData with rewardAddress := [7, 7], totalStakeValue := 5000 }

/-- An `unStakeTokens(2000)` call. -/
def callUnstk2000 : ContractCallInput :=
  { function := "unStakeTokens", callerAddr := [7, 7], recipientAddr := [9, 9],
    callValue := 0, arguments := [[7, 208]] }

/-- An `unBondTokens(3000)` call. -/
def callUnbd3000 : ContractCallInput :=
  { function := "unBondTokens", callerAddr := [7, 7], recipientAddr := [9, 9],
    callValue := 0, arguments := [[11, 184]] }

/-- The split-unbond scenario of the spec: unstake 2000 at nonce 100 and at
nonce 200, then `unBondTokens(3000)` at nonce 260. -/
def c2Scenario : EEIState × ReturnCode :=
  unBondTokens testParams (worldAt 260)
    (unStakeTokens testParams (worldAt 200)
      (unStakeTokens testParams (worldAt 100)
        (stateWith [7, 7] recC2) callUnstk2000).1 callUnstk2000).1 callUnbd3000

/-- **C2.** (amended: nonces also at most `currentNonce`.) For a record with
non-decreasing, non-wrapping `UnstakedInfo` nonces: with no positive ceiling,
or a ceiling the matured prefix sums never reach,
`unBondTokensFromRegistrationData` returns the sum of exactly the matured
entries (`currentNonce - nonce ≥ unBondPeriod`), leaves the unmatured ones,
and subtracts the total from `TotalUnstaked`, underflow giving `UserError`;
when the accumulator first reaches the positive ceiling at entry `k`, the
result is capped at the ceiling and entry `k` is replaced by the positive
remainder (or fully consumed when the remainder is zero). In particular the
split-unbond scenario (two `unStakeTokens` of 2000 at nonces 100 and 200,
`unBondTokens(3000)` at nonce 260, period 50) pays exactly 3000 and leaves
`UnstakedInfo = [(200, 1000)]`. -/
theorem C2_unBondTokens_maturity (p : SCParams) (w : World) (s : EEIState)
    (d : ValidatorDataV2) (v : Int)
    (hCur : w.currentNonce < 2 ^ 64)
    (hBound : ∀ e ∈ d.unstakedInfo, e.unstakedNonce ≤ w.currentNonce)
    (hSorted : d.unstakedInfo.Pairwise
      (fun a b => a.unstakedNonce ≤ b.unstakedNonce)) :
    ((v ≤ 0 ∨ (∀ j, 1 ≤ j →
        j ≤ (d.unstakedInfo.filter (maturedB w.currentNonce p.unBondPeriod)).length →
        sumUnstaked ((d.unstakedInfo.filter (maturedB w.currentNonce p.unBondPeriod)).take j) < v)) →
      unBondTokensFromRegistrationData p w s d v =
        if d.totalUnstaked -
            sumUnstaked (d.unstakedInfo.filter (maturedB w.currentNonce p.unBondPeriod)) < 0 then
          (addReturnMessage s "too much requested to unBond", .error .UserError)
        else
          (s, .ok (sumUnstaked (d.unstakedInfo.filter (maturedB w.currentNonce p.unBondPeriod)),
            { d with
              unstakedInfo :=
                d.unstakedInfo.filter (fun e => !(maturedB w.currentNonce p.unBondPeriod e))
              totalUnstaked := d.totalUnstaked -
                sumUnstaked (d.unstakedInfo.filter (maturedB w.currentNonce p.unBondPeriod)) }))) ∧
    (∀ k, 0 < v →
      k < (d.unstakedInfo.filter (maturedB w.currentNonce p.unBondPeriod)).length →
      v ≤ sumUnstaked
        ((d.unstakedInfo.filter (maturedB w.currentNonce p.unBondPeriod)).take (k + 1)) →
      (∀ j ≤ k, sumUnstaked
        ((d.unstakedInfo.filter (maturedB w.currentNonce p.unBondPeriod)).take j) < v) →
      unBondTokensFromRegistrationData p w s d v =
        if d.totalUnstaked - v < 0 then
          (addReturnMessage s "too much requested to unBond", .error .UserError)
        else
          (s, .ok (v,
            { d with
              unstakedInfo :=
                if 0 < sumUnstaked
                    ((d.unstakedInfo.filter (maturedB w.currentNonce p.unBondPeriod)).take (k + 1)) - v then
                  (d.unstakedInfo.set k
                    ⟨((d.unstakedInfo.filter (maturedB w.currentNonce p.unBondPeriod)).getD k ⟨0, 0⟩).unstakedNonce,
                     sumUnstaked
                       ((d.unstakedInfo.filter (maturedB w.currentNonce p.unBondPeriod)).take (k + 1)) - v⟩).drop k
                else d.unstakedInfo.drop (k + 1)
              totalUnstaked := d.totalUnstaked - v }))) ∧
    (c2Scenario.2 = .Ok ∧
     (c2Scenario.1.records [7, 7]).map (fun d => d.unstakedInfo) =
       some [⟨200, 1000⟩] ∧
     c2Scenario.1.transfers = [⟨[7, 7], [9, 9], 3000⟩]) := by
  refine ⟨fun h1 => unBondTokensData_noReach p w s d v hCur hBound hSorted h1,
    fun k hv hk hreach hmin =>
      unBondTokensData_reach p w s d v k hCur hBound hSorted hv hk hreach hmin,
    by decide, by decide, by decide⟩

/-- A sorted record whose second entry carries a wrapped (future) nonce. -/
def recC2w : ValidatorDataV2 :=
  { emptyValidatorData with
    rewardAddress := [7, 7]
    totalUnstaked := 12
    unstakedInfo := [⟨60, 5⟩, ⟨2 ^ 64 - 1, 7⟩] }

/-- Counterexample for the frozen C2: with a wrapped (future) nonce the
claim's set-of-matured-entries reading fails. The nonces are non-decreasing
and the second entry satisfies `currentNonce - nonce ≥ unBondPeriod` in
uint64 arithmetic (value 7), yet the scan breaks at the first entry and
unbonds 0, leaving the record unchanged. -/
theorem C2_unBondTokens_maturity_counterexample :
    recC2w.unstakedInfo.Pairwise (fun a b => a.unstakedNonce ≤ b.unstakedNonce) ∧
    maturedB 100 50 ⟨2 ^ 64 - 1, 7⟩ = true ∧
    sumUnstaked (recC2w.unstakedInfo.filter (maturedB 100 50)) = 7 ∧
    (unBondTokensFromRegistrationData testParams (worldAt 100) emptyState recC2w 0).2.toOption =
      some (0, recC2w) := by
  refine ⟨by decide, by decide, by decide, by decide⟩

/-- The record right before the scenario's `unBondTokens(3000)`. -/
def recC2b : ValidatorDataV2 :=
  { emptyValidatorData with
    rewardAddress := [7, 7]
    totalStakeValue := 1000
    totalUnstaked := 4000
    unstakedInfo := [⟨100, 2000⟩, ⟨200, 2000⟩] }

/-- Witness for C2 (amended): the ceiling case at `k = 1` on the concrete
record of the split-unbond scenario returns exactly 3000 and leaves the
single split entry `(200, 1000)`. -/
theorem C2_unBondTokens_maturity_witness :
    (unBondTokensFromRegistrationData testParams (worldAt 260) emptyState recC2b
      3000).2.toOption =
      some (3000, { recC2b with
        unstakedInfo := [⟨200, 1000⟩]
        totalUnstaked := 1000 }) := by
  have h := (C2_unBondTokens_maturity testParams (worldAt 260) emptyState recC2b 3000
    (by decide) (by decide) (by decide)).2.1 1 (by decide) (by decide) (by decide)
    (by decide)
  rw [h]
  decide

/-! ## C6 — the TotalUnstaked sum invariant -/

/-- The C6 record invariant: `TotalUnstaked` is the sum of the
`UnstakedInfo` values. -/
def unstakedSumInvariant (d : ValidatorDataV2) : Prop :=
  d.totalUnstaked = sumUnstaked d.unstakedInfo

/-- The C6 state invariant: every stored record satisfies
`unstakedSumInvariant`. -/
def recordsInvariant (s : EEIState) : Prop :=
  ∀ addr d, s.records addr = some d → unstakedSumInvariant d

lemma recordsInvariant_of_eq {s s' : EEIState}
    (h : s'.records = s.records) (hs : recordsInvariant s) :
    recordsInvariant s' := by
  intro addr d hd
  rw [h] at hd
  exact hs addr d hd

lemma setRecord_inv {s : EEIState} {addr : Bytes} {o : Option ValidatorDataV2}
    (hs : recordsInvariant s)
    (ho : ∀ d, o = some d → unstakedSumInvariant d) :
    recordsInvariant (setRecord s addr o) := by
  intro addr' d' hd'
  simp only [setRecord] at hd'
  by_cases h : addr' = addr
  · rw [if_pos h] at hd'
    exact ho d' hd'
  · rw [if_neg h] at hd'
    exact hs addr' d' hd'

lemma save_inv {s : EEIState} {addr : Bytes} {d : ValidatorDataV2}
    (hs : recordsInvariant s) (hd : unstakedSumInvariant d) :
    recordsInvariant (saveRegistrationData s addr d) :=
  setRecord_inv hs (by intro d' h; cases h; exact hd)

lemma getOrCreate_inv {s : EEIState} (hs : recordsInvariant s) (addr : Bytes) :
    unstakedSumInvariant (getOrCreateRegistrationData s addr) := by
  unfold getOrCreateRegistrationData
  cases h : s.records addr with
  | none => simp [unstakedSumInvariant, emptyValidatorData, sumUnstaked]
  | some d => simpa using hs addr d h

lemma processUnStakeValue_inv {p : SCParams} {w : World} {s : EEIState}
    {d : ValidatorDataV2} {v : Int}
    (hd : unstakedSumInvariant d) :
    (processUnStakeValue p w s d v).1.records = s.records ∧
    ∀ d', (processUnStakeValue p w s d v).2 = .ok d' → unstakedSumInvariant d' := by
  simp only [processUnStakeValue]
  split
  · simp [addReturnMessage]
  · split
    · simp [addReturnMessage]
    · refine ⟨rfl, ?_⟩
      intro d' h
      cases h
      simp only [unstakedSumInvariant, sumUnstaked] at *
      simp [hd]

lemma sumUnstaked_take_drop (l : List UnstakedValue) (k : Nat) :
    sumUnstaked (l.take k) + sumUnstaked (l.drop k) = sumUnstaked l := by
  simp only [sumUnstaked]
  rw [← List.sum_append, ← List.map_append, List.take_append_drop]

lemma drop_set_cons {α} (x : α) :
    ∀ (l : List α) (m : Nat), m < l.length →
    (l.set m x).drop m = x :: l.drop (m + 1)
  | [], m, h => by simp at h
  | a :: t, 0, h => by simp
  | a :: t, m + 1, h => by
    simp only [List.set_cons_succ, List.drop_succ_cons]
    exact drop_set_cons x t m (by simpa using h)

lemma scanLoop_main (cur period : Nat) (stopAt : Bool) (v : Int) :
    ∀ (l : List UnstakedValue) (total : Int) (idx : Nat),
    idx ≤ (scanLoop cur period stopAt v l total idx).2.1 ∧
    (scanLoop cur period stopAt v l total idx).2.1 - idx ≤ l.length ∧
    0 ≤ (scanLoop cur period stopAt v l total idx).2.2.unstakedValue ∧
    (scanLoop cur period stopAt v l total idx).1 +
        (scanLoop cur period stopAt v l total idx).2.2.unstakedValue =
      total + sumUnstaked (l.take ((scanLoop cur period stopAt v l total idx).2.1 - idx)) ∧
    (0 < (scanLoop cur period stopAt v l total idx).2.2.unstakedValue →
      idx < (scanLoop cur period stopAt v l total idx).2.1)
  | [], total, idx => by simp [scanLoop, sumUnstaked]
  | e :: rest, total, idx => by
    by_cases hm : canUnBond cur period e.unstakedNonce = true
    · by_cases hstop : (stopAt = true ∧ v ≤ total + e.unstakedValue)
      · simp only [scanLoop]
        rw [if_pos hm, if_pos hstop]
        obtain ⟨hs1, hs2⟩ := hstop
        dsimp only
        refine ⟨by omega, by simp, by omega, ?_, by omega⟩
        rw [show idx + 1 - idx = 1 from by omega]
        simp only [sumUnstaked, List.take_succ_cons, List.take_zero, List.map_cons,
          List.map_nil, List.sum_cons, List.sum_nil]
        omega
      · have ih := scanLoop_main cur period stopAt v rest (total + e.unstakedValue) (idx + 1)
        simp only [scanLoop]
        rw [if_pos hm, if_neg hstop]
        obtain ⟨ih1, ih2, ih3, ih4, ih5⟩ := ih
        refine ⟨by omega, by simp only [List.length_cons]; omega, ih3, ?_, by omega⟩
        have hidx : (scanLoop cur period stopAt v rest (total + e.unstakedValue) (idx + 1)).2.1 - idx =
            ((scanLoop cur period stopAt v rest (total + e.unstakedValue) (idx + 1)).2.1 - (idx + 1)) + 1 := by
          omega
        rw [hidx, List.take_succ_cons]
        simp only [sumUnstaked, List.map_cons, List.sum_cons] at *
        omega
    · simp only [scanLoop]
      rw [if_neg hm]
      simp [scanLoop, sumUnstaked]

lemma unBondTokensData_inv {p : SCParams} {w : World} {s : EEIState}
    {d : ValidatorDataV2} {v : Int}
    (hd : unstakedSumInvariant d) :
    (unBondTokensFromRegistrationData p w s d v).1.records = s.records ∧
    ∀ t d', (unBondTokensFromRegistrationData p w s d v).2 = .ok (t, d') →
      unstakedSumInvariant d' := by
  obtain ⟨h1, h2, h3, h4, h5⟩ :=
    scanLoop_main w.currentNonce p.unBondPeriod (decide (0 < v)) v d.unstakedInfo 0 0
  simp only [unBondTokensFromRegistrationData]
  split
  · simp [addReturnMessage]
  · refine ⟨rfl, ?_⟩
    intro t d' h
    cases h
    simp only [unstakedSumInvariant] at hd ⊢
    simp only [Nat.sub_zero, zero_add] at h2 h4 h5
    set r := scanLoop w.currentNonce p.unBondPeriod (decide (0 < v)) v d.unstakedInfo 0 0 with hr
    by_cases hsp : 0 < r.2.2.unstakedValue
    · have h6 := h5 hsp
      rw [if_pos hsp]
      have hlt : r.2.1 - 1 < d.unstakedInfo.length := by omega
      rw [drop_set_cons _ _ _ hlt]
      rw [show r.2.1 - 1 + 1 = r.2.1 from by omega]
      have hsum := sumUnstaked_take_drop d.unstakedInfo r.2.1
      rw [hd]
      simp only [sumUnstaked, List.map_cons, List.sum_cons] at h4 hsum ⊢
      omega
    · rw [if_neg hsp]
      have hsum := sumUnstaked_take_drop d.unstakedInfo r.2.1
      rw [hd]
      simp only [sumUnstaked] at h4 hsum ⊢
      omega

lemma unJailLoopV1_records (w : World) :
    ∀ (keys : List Bytes) (s : EEIState),
    (unJailLoopV1 w keys s).records = s.records
  | [], _ => rfl
  | k :: rest, s => by
    simp only [unJailLoopV1, executeOnStakingSC]
    split
    · exact unJailLoopV1_records w rest _
    · split
      · exact unJailLoopV1_records w rest _
      · exact unJailLoopV1_records w rest _

lemma unBondSC_records (w : World) :
    ∀ (keys : List Bytes) (s : EEIState) (acc : List Bytes),
    (unBondNodesFromStakingSC w keys s acc).1.records = s.records
  | [], _, _ => rfl
  | k :: rest, s, acc => by
    simp only [unBondNodesFromStakingSC, executeOnStakingSC]
    split
    · exact unBondSC_records w rest _ _
    · exact unBondSC_records w rest _ _

lemma getBlsKeysStatusLoop_records (w : World) :
    ∀ (keys : List Bytes) (s : EEIState),
    (getBlsKeysStatusLoop w keys s).records = s.records
  | [], _ => rfl
  | k :: rest, s => by
    simp only [getBlsKeysStatusLoop, executeOnStakingSC]
    split
    · exact getBlsKeysStatusLoop_records w rest _
    · split
      · exact getBlsKeysStatusLoop_records w rest _
      · split
        · exact getBlsKeysStatusLoop_records w rest _
        · exact getBlsKeysStatusLoop_records w rest _

lemma setOwnerOfBlsKey_records (w : World) (s : EEIState) (k o : Bytes) :
    (setOwnerOfBlsKey w s k o).1.records = s.records := by
  simp only [setOwnerOfBlsKey, executeOnStakingSC]
  split
  · rfl
  · split
    · rfl
    · rfl

lemma updateStakingV2Loop_records (w : World) (owner : Bytes) :
    ∀ (keys : List Bytes) (s : EEIState),
    (updateStakingV2Loop w owner keys s).1.records = s.records
  | [], _ => rfl
  | k :: rest, s => by
    rcases hso : setOwnerOfBlsKey w s k owner with ⟨s1, ok⟩
    have h1 : s1.records = s.records := by
      have := setOwnerOfBlsKey_records w s k owner
      rw [hso] at this
      exact this
    simp only [updateStakingV2Loop, hso]
    split
    · rw [updateStakingV2Loop_records w owner rest s1, h1]
    · exact h1

lemma getNewValidKeysProbe_records (w : World) :
    ∀ (keys : List Bytes) (s : EEIState),
    (getNewValidKeysProbe w keys s).1.records = s.records
  | [], _ => rfl
  | k :: rest, s => by
    simp only [getNewValidKeysProbe, executeOnStakingSC]
    split
    · rfl
    · exact getNewValidKeysProbe_records w rest _

lemma verifyKeysLoop_records (w : World) (pk : Bytes) :
    ∀ (pairs : List (Bytes × Bytes)) (s : EEIState),
    (verifyKeysLoop w pk pairs s).1.records = s.records
  | [], _ => rfl
  | (bk, sg) :: rest, s => by
    simp only [verifyKeysLoop]
    split
    · exact verifyKeysLoop_records w pk rest _
    · exact verifyKeysLoop_records w pk rest _

lemma registerKeysLoop_effects (w : World) (reward owner : Bytes) :
    ∀ (keys : List Bytes) (s : EEIState) (d : ValidatorDataV2),
    (registerKeysLoop w reward owner keys s d).1.records = s.records ∧
    (registerKeysLoop w reward owner keys s d).2.1.totalUnstaked = d.totalUnstaked ∧
    (registerKeysLoop w reward owner keys s d).2.1.unstakedInfo = d.unstakedInfo
  | [], _, _ => ⟨rfl, rfl, rfl⟩
  | k :: rest, s, d => by
    simp only [registerKeysLoop, executeOnStakingSC]
    split
    · exact ⟨rfl, rfl, rfl⟩
    · split
      · exact ⟨rfl, rfl, rfl⟩
      · exact registerKeysLoop_effects w reward owner rest _ _

lemma activateLoop_records (w : World) (nq : Nat) (reward owner : Bytes) :
    ∀ (keys : List Bytes) (s : EEIState) (n : Nat),
    (activateLoop w nq reward owner keys s n).1.records = s.records
  | [], _, _ => rfl
  | k :: rest, s, n => by
    simp only [activateLoop, executeOnStakingSC]
    repeat' split
    all_goals first
      | rfl
      | exact activateLoop_records w nq reward owner rest _ _

lemma stakeOptionsLoop_effects (p : SCParams) (flag : Bool) :
    ∀ (args : List Bytes) (s : EEIState) (d : ValidatorDataV2),
    (stakeOptionsLoop p flag args s d).1.records = s.records ∧
    (stakeOptionsLoop p flag args s d).2.totalUnstaked = d.totalUnstaked ∧
    (stakeOptionsLoop p flag args s d).2.unstakedInfo = d.unstakedInfo
  | [], _, _ => ⟨rfl, rfl, rfl⟩
  | argI :: rest, s, d => by
    simp only [stakeOptionsLoop]
    split
    · split
      · exact stakeOptionsLoop_effects p flag rest _ _
      · exact stakeOptionsLoop_effects p flag rest _ _
    · exact stakeOptionsLoop_effects p flag rest _ _

lemma registerBLSKeys_effects (w : World) (s : EEIState) (d : ValidatorDataV2)
    (pk owner : Bytes) (args : List Bytes) :
    (registerBLSKeys w s d pk owner args).1.records = s.records ∧
    (registerBLSKeys w s d pk owner args).2.1.totalUnstaked = d.totalUnstaked ∧
    (registerBLSKeys w s d pk owner args).2.1.unstakedInfo = d.unstakedInfo := by
  simp only [registerBLSKeys]
  split
  · exact ⟨rfl, rfl, rfl⟩
  · rcases hv : getVerifiedBLSKeysFromArgs w s pk args with ⟨s1, keys1⟩
    have hv1 : s1.records = s.records := by
      have := verifyKeysLoop_records w pk
        (keyPairs args (bytesToUint64 (args.headD []))) s
      rcases hvk : verifyKeysLoop w pk (keyPairs args (bytesToUint64 (args.headD []))) s
        with ⟨sv, kv, bad⟩
      rw [hvk] at this
      simp only [getVerifiedBLSKeysFromArgs, hvk] at hv
      split at hv
      · cases hv
        simpa [addReturnMessage] using this
      · cases hv
        simpa using this
    rcases hg : getNewValidKeys w s1 d.blsPubKeys keys1 with ⟨s2, res⟩
    have hg1 : s2.records = s1.records := by
      have := getNewValidKeysProbe_records w (newKeysOf d.blsPubKeys keys1) s1
      simp only [getNewValidKeys] at hg
      split at hg <;> (cases hg; simpa using this)
    cases res with
    | none => exact ⟨by rw [hg1, hv1], rfl, rfl⟩
    | some newKeys =>
      have hr := registerKeysLoop_effects w d.rewardAddress owner newKeys s2 d
      rcases hrl : registerKeysLoop w d.rewardAddress owner newKeys s2 d
        with ⟨s3, d3, oc⟩
      rw [hrl] at hr
      dsimp only
      rw [hrl]
      cases oc with
      | done => exact ⟨by dsimp only; rw [hr.1, hg1, hv1], hr.2.1, hr.2.2⟩
      | hostError => exact ⟨by dsimp only; rw [hr.1, hg1, hv1], hr.2.1, hr.2.2⟩
      | registryNotOk => exact ⟨by dsimp only; rw [hr.1, hg1, hv1], hr.2.1, hr.2.2⟩

lemma useGas_some {g : Nat} {s s' : EEIState} (h : useGas g s = some s') :
    s'.records = s.records := by
  simp only [useGas] at h
  split at h
  · simp at h
  · cases h
    rfl

lemma basicCheckForUnStakeUnBond_inv {p : SCParams} {s : EEIState}
    {a : ContractCallInput} (hs : recordsInvariant s) :
    (basicCheckForUnStakeUnBond p s a).1.records = s.records ∧
    ∀ d, (basicCheckForUnStakeUnBond p s a).2 = .ok d → unstakedSumInvariant d := by
  simp only [basicCheckForUnStakeUnBond]
  split
  · simp [addReturnMessage]
  split
  · simp [addReturnMessage]
  split
  · simp [addReturnMessage]
  refine ⟨rfl, ?_⟩
  intro d h
  cases h
  exact getOrCreate_inv hs _

lemma basicChecksForUnStakeNodes_inv {p : SCParams} {s : EEIState}
    {a : ContractCallInput} (hs : recordsInvariant s) :
    (basicChecksForUnStakeNodes p s a).1.records = s.records ∧
    ∀ d, (basicChecksForUnStakeNodes p s a).2 = .ok d → unstakedSumInvariant d := by
  simp only [basicChecksForUnStakeNodes]
  split
  · simp [addReturnMessage]
  split
  · simp [addReturnMessage]
  split
  · simp [addReturnMessage]
  split
  · simp [addReturnMessage]
  rename_i s2 heq
  have h2 := useGas_some heq
  split
  · refine ⟨h2, ?_⟩
    intro d h
    simp at h
  · refine ⟨h2, ?_⟩
    intro d h
    cases h
    exact getOrCreate_inv hs _

lemma checkUnBondArguments_inv {p : SCParams} {s : EEIState}
    {a : ContractCallInput} (hs : recordsInvariant s) :
    (checkUnBondArguments p s a).1.records = s.records ∧
    ∀ d, (checkUnBondArguments p s a).2 = .ok d → unstakedSumInvariant d := by
  simp only [checkUnBondArguments]
  split
  · simp [addReturnMessage]
  split
  · simp [addReturnMessage]
  split
  · simp [addReturnMessage]
  split
  · simp [addReturnMessage]
  split
  · simp [addReturnMessage]
  rename_i s2 heq
  have h2 := useGas_some heq
  refine ⟨h2, ?_⟩
  intro d h
  cases h
  exact getOrCreate_inv hs _

lemma updateRegAfterUnBond_inv {p : SCParams} {s : EEIState}
    {d : ValidatorDataV2} {keys : List Bytes} {addr : Bytes}
    (hs : recordsInvariant s) (hd : unstakedSumInvariant d) :
    recordsInvariant (updateRegistrationDataAfterUnBond p s d keys addr).1 := by
  simp only [updateRegistrationDataAfterUnBond]
  split
  · exact hs
  · split
    · exact setRecord_inv hs (by intro d' h; cases h)
    · refine save_inv hs ?_
      simpa [deleteUnBondedKeys, unstakedSumInvariant] using hd

lemma init_inv {s : EEIState} {a : ContractCallInput}
    (hs : recordsInvariant s) : recordsInvariant (init s a).1 := by
  simp only [init]
  split
  · exact hs
  · exact hs

lemma pause_inv {p : SCParams} {s : EEIState} {a : ContractCallInput}
    (hs : recordsInvariant s) : recordsInvariant (pauseUnStakeUnBond p s a).1 := by
  simp only [pauseUnStakeUnBond]
  repeat' split
  all_goals exact hs

lemma unpause_inv {p : SCParams} {s : EEIState} {a : ContractCallInput}
    (hs : recordsInvariant s) : recordsInvariant (unPauseStakeUnBond p s a).1 := by
  simp only [unPauseStakeUnBond]
  repeat' split
  all_goals exact hs

lemma get_inv {p : SCParams} {w : World} {s : EEIState} {a : ContractCallInput}
    (hs : recordsInvariant s) : recordsInvariant (get p w s a).1 := by
  simp only [get]
  split
  · exact hs
  split
  · exact hs
  split
  · exact hs
  rename_i s2 heq
  have h2 := useGas_some heq
  refine recordsInvariant_of_eq ?_ hs
  exact h2

lemma setConfig_inv {w : World} {s : EEIState} {a : ContractCallInput}
    (hs : recordsInvariant s) : recordsInvariant (setConfig w s a).1 := by
  simp only [setConfig]
  repeat' split
  all_goals exact hs

lemma getTotalStaked_inv {p : SCParams} {s : EEIState} {a : ContractCallInput}
    (hs : recordsInvariant s) : recordsInvariant (getTotalStaked p s a).1 := by
  simp only [getTotalStaked]
  split
  · exact hs
  split
  · exact hs
  rename_i s2 heq
  have h2 := useGas_some heq
  split
  · refine recordsInvariant_of_eq ?_ hs
    exact h2
  · refine recordsInvariant_of_eq ?_ hs
    exact h2

lemma foldl_doFinish_records :
    ∀ (l : List Bytes) (s : EEIState), (l.foldl doFinish s).records = s.records
  | [], _ => rfl
  | b :: rest, s => foldl_doFinish_records rest (doFinish s b)

lemma getTotalStakedTopUp_inv {p : SCParams} {s : EEIState}
    {a : ContractCallInput} (hs : recordsInvariant s) :
    recordsInvariant (getTotalStakedTopUpBlsKeys p s a).1 := by
  simp only [getTotalStakedTopUpBlsKeys]
  split
  · exact hs
  split
  · exact hs
  split
  · exact hs
  rename_i s2 heq
  have h2 := useGas_some heq
  split
  · refine recordsInvariant_of_eq ?_ hs
    exact h2
  split
  · refine recordsInvariant_of_eq ?_ hs
    exact h2
  · refine recordsInvariant_of_eq ?_ hs
    exact (foldl_doFinish_records _ _).trans h2

lemma getBlsKeysStatus_inv {p : SCParams} {w : World} {s : EEIState}
    {a : ContractCallInput} (hs : recordsInvariant s) :
    recordsInvariant (getBlsKeysStatus p w s a).1 := by
  simp only [getBlsKeysStatus]
  split
  · exact hs
  split
  · exact hs
  split
  · exact hs
  · refine recordsInvariant_of_eq ?_ hs
    exact getBlsKeysStatusLoop_records w _ _

lemma updateStakingV2_inv {p : SCParams} {w : World} {s : EEIState}
    {a : ContractCallInput} (hs : recordsInvariant s) :
    recordsInvariant (updateStakingV2 p w s a).1 := by
  simp only [updateStakingV2]
  repeat' split
  all_goals first
    | exact hs
    | (refine recordsInvariant_of_eq ?_ hs
       exact updateStakingV2Loop_records w _ _ _)

lemma unJailV1_inv {p : SCParams} {w : World} {s : EEIState}
    {a : ContractCallInput} (hs : recordsInvariant s) :
    recordsInvariant (unJailV1 p w s a).1 := by
  simp only [unJailV1]
  split
  · exact hs
  split
  · exact hs
  split
  · exact hs
  rename_i s2 heq
  have h2 := useGas_some heq
  split
  · refine recordsInvariant_of_eq ?_ hs
    exact h2
  · refine recordsInvariant_of_eq ?_ hs
    exact (unJailLoopV1_records w _ _).trans h2

lemma unJail_inv {p : SCParams} {w : World} {s : EEIState}
    {a : ContractCallInput} (hs : recordsInvariant s) :
    recordsInvariant (unJail p w s a).1 := by
  simp only [unJail]
  split
  · exact unJailV1_inv hs
  split
  · exact hs
  split
  · exact hs
  split
  · exact hs
  rename_i s2 heq
  have h2 := useGas_some heq
  split
  · refine recordsInvariant_of_eq ?_ hs
    exact h2
  refine recordsInvariant_of_eq ?_ hs
  show (addToUnJailFunds _ _).records = s.records
  simp only [addToUnJailFunds]
  split
  · exact ((unJailLoopV2_spec w _ _ _ _).1).trans h2
  · exact ((unJailLoopV2_spec w _ _ _ _).1).trans h2

lemma claim_inv {p : SCParams} {s : EEIState} {a : ContractCallInput}
    (hs : recordsInvariant s) : recordsInvariant (claim p s a).1 := by
  simp only [claim]
  split
  · exact hs
  split
  · exact hs
  split
  · exact hs
  split
  · exact hs
  rename_i s2 heq
  have hs2 := recordsInvariant_of_eq (useGas_some heq) hs
  split
  · exact hs2
  · refine save_inv hs2 ?_
    have := getOrCreate_inv hs a.callerAddr
    simpa [unstakedSumInvariant] using this

lemma changeRewardAddress_inv {p : SCParams} {w : World} {s : EEIState}
    {a : ContractCallInput} (hs : recordsInvariant s) :
    recordsInvariant (changeRewardAddress p w s a).1 := by
  simp only [changeRewardAddress, executeOnStakingSC]
  split
  · exact hs
  split
  · exact hs
  split
  · exact hs
  split
  · exact hs
  split
  · exact hs
  split
  · exact hs
  rename_i s2 heq
  have hs2 := recordsInvariant_of_eq (useGas_some heq) hs
  have hsave : recordsInvariant
      (saveRegistrationData s2 a.callerAddr
        { getOrCreateRegistrationData s a.callerAddr with
          rewardAddress := a.arguments.headD [] }) := by
    refine save_inv hs2 ?_
    have := getOrCreate_inv hs a.callerAddr
    simpa [unstakedSumInvariant] using this
  split
  · exact hsave
  split
  · exact hsave
  · exact hsave

lemma unStakeTokens_inv {p : SCParams} {w : World} {s : EEIState}
    {a : ContractCallInput} (hs : recordsInvariant s) :
    recordsInvariant (unStakeTokens p w s a).1 := by
  have hb := basicCheckForUnStakeUnBond_inv (p := p) (a := a) hs
  simp only [unStakeTokens]
  split
  · rename_i s1 rc heq
    rw [heq] at hb
    exact recordsInvariant_of_eq hb.1 hs
  rename_i s1 d heq
  rw [heq] at hb
  have hs1 : recordsInvariant s1 := recordsInvariant_of_eq hb.1 hs
  have hd : unstakedSumInvariant d := hb.2 d rfl
  split
  · exact hs1
  split
  · exact hs1
  rename_i s2 heq2
  have hs2 := recordsInvariant_of_eq (useGas_some heq2) hs1
  split
  · exact hs2
  have hp := processUnStakeValue_inv (p := p) (w := w) (s := s2)
    (v := (bytesToNat (a.arguments.headD []) : Int)) hd
  split
  · rename_i s3 rc heq3
    rw [heq3] at hp
    exact recordsInvariant_of_eq hp.1 hs2
  · rename_i s3 d3 heq3
    rw [heq3] at hp
    exact save_inv (recordsInvariant_of_eq hp.1 hs2) (hp.2 d3 rfl)

lemma unStake_inv {p : SCParams} {w : World} {s : EEIState}
    {a : ContractCallInput} (hs : recordsInvariant s) :
    recordsInvariant (unStake p w s a).1 := by
  have hb := basicChecksForUnStakeNodes_inv (p := p) (a := a) hs
  simp only [unStake]
  split
  · exact hs
  split
  · rename_i s1 rc heq
    rw [heq] at hb
    exact recordsInvariant_of_eq hb.1 hs
  rename_i s1 d heq
  rw [heq] at hb
  have hs1 : recordsInvariant s1 := recordsInvariant_of_eq hb.1 hs
  have hd : unstakedSumInvariant d := hb.2 d rfl
  have hrec := unStakeSC_records w d.rewardAddress a.arguments s1 0
  have hs2 : recordsInvariant (unStakeNodesFromStakingSC w d.rewardAddress a.arguments s1 0).1 :=
    recordsInvariant_of_eq hrec hs1
  split
  · exact hs2
  have hp := processUnStakeValue_inv (p := p) (w := w)
    (s := (unStakeNodesFromStakingSC w d.rewardAddress a.arguments s1 0).1)
    (v := if d.totalStakeValue <
        (getConfig p (unStakeNodesFromStakingSC w d.rewardAddress a.arguments s1 0).1).nodePrice *
          (unStakeNodesFromStakingSC w d.rewardAddress a.arguments s1 0).2 then
        d.totalStakeValue
      else
        (getConfig p (unStakeNodesFromStakingSC w d.rewardAddress a.arguments s1 0).1).nodePrice *
          (unStakeNodesFromStakingSC w d.rewardAddress a.arguments s1 0).2) hd
  split
  · rename_i s3 rc heq3
    rw [heq3] at hp
    exact recordsInvariant_of_eq hp.1 hs2
  · rename_i s3 d3 heq3
    rw [heq3] at hp
    exact save_inv (recordsInvariant_of_eq hp.1 hs2) (hp.2 d3 rfl)

lemma unStakeNodes_inv {p : SCParams} {w : World} {s : EEIState}
    {a : ContractCallInput} (hs : recordsInvariant s) :
    recordsInvariant (unStakeNodes p w s a).1 := by
  have hb := basicChecksForUnStakeNodes_inv (p := p) (a := a) hs
  simp only [unStakeNodes]
  split
  · exact hs
  split
  · exact hs
  split
  · rename_i s1 rc heq
    rw [heq] at hb
    exact recordsInvariant_of_eq hb.1 hs
  · rename_i s1 d heq
    rw [heq] at hb
    have hs1 : recordsInvariant s1 := recordsInvariant_of_eq hb.1 hs
    exact recordsInvariant_of_eq (unStakeSC_records w d.rewardAddress a.arguments s1 0) hs1

lemma unBondV1_inv {p : SCParams} {w : World} {s : EEIState}
    {a : ContractCallInput} (hs : recordsInvariant s) :
    recordsInvariant (unBondV1 p w s a).1 := by
  have hb := checkUnBondArguments_inv (p := p) (a := a) hs
  simp only [unBondV1]
  split
  · rename_i s1 rc heq
    rw [heq] at hb
    exact recordsInvariant_of_eq hb.1 hs
  rename_i s1 d heq
  rw [heq] at hb
  have hs1 : recordsInvariant s1 := recordsInvariant_of_eq hb.1 hs
  have hd : unstakedSumInvariant d := hb.2 d rfl
  have hs2 : recordsInvariant (unBondNodesFromStakingSC w a.arguments s1 []).1 :=
    recordsInvariant_of_eq (unBondSC_records w a.arguments s1 []) hs1
  split
  · exact hs2
  split
  · exact hs2
  split
  · exact hs2
  split
  · exact setRecord_inv hs2 (by intro d' h; cases h)
  · refine save_inv hs2 ?_
    simpa [deleteUnBondedKeys, unstakedSumInvariant] using hd

lemma unBond_inv {p : SCParams} {w : World} {s : EEIState}
    {a : ContractCallInput} (hs : recordsInvariant s) :
    recordsInvariant (unBond p w s a).1 := by
  have hb := checkUnBondArguments_inv (p := p) (a := a) hs
  simp only [unBond]
  split
  · exact unBondV1_inv hs
  split
  · exact hs
  split
  · rename_i s1 rc heq
    rw [heq] at hb
    exact recordsInvariant_of_eq hb.1 hs
  rename_i s1 d heq
  rw [heq] at hb
  have hs1 : recordsInvariant s1 := recordsInvariant_of_eq hb.1 hs
  have hd : unstakedSumInvariant d := hb.2 d rfl
  have hs2 : recordsInvariant (unBondNodesFromStakingSC w a.arguments s1 []).1 :=
    recordsInvariant_of_eq (unBondSC_records w a.arguments s1 []) hs1
  have hu := unBondTokensData_inv (p := p) (w := w)
    (s := (unBondNodesFromStakingSC w a.arguments s1 []).1)
    (v := (getConfig p (unBondNodesFromStakingSC w a.arguments s1 []).1).nodePrice *
      (unBondNodesFromStakingSC w a.arguments s1 []).2.length) hd
  split
  · rename_i s3 rc heq3
    rw [heq3] at hu
    exact recordsInvariant_of_eq hu.1 hs2
  rename_i s3 t d3 heq3
  rw [heq3] at hu
  have hs3 : recordsInvariant s3 := recordsInvariant_of_eq hu.1 hs2
  have hd3 : unstakedSumInvariant d3 := hu.2 t d3 rfl
  have hup := @updateRegAfterUnBond_inv p s3 d3
    (unBondNodesFromStakingSC w a.arguments s1 []).2 a.callerAddr hs3 hd3
  split
  · exact hup
  · exact hup

lemma unBondNodes_inv {p : SCParams} {w : World} {s : EEIState}
    {a : ContractCallInput} (hs : recordsInvariant s) :
    recordsInvariant (unBondNodes p w s a).1 := by
  have hb := checkUnBondArguments_inv (p := p) (a := a) hs
  simp only [unBondNodes]
  split
  · exact hs
  split
  · exact hs
  split
  · rename_i s1 rc heq
    rw [heq] at hb
    exact recordsInvariant_of_eq hb.1 hs
  rename_i s1 d heq
  rw [heq] at hb
  have hs1 : recordsInvariant s1 := recordsInvariant_of_eq hb.1 hs
  have hd : unstakedSumInvariant d := hb.2 d rfl
  have hs2 : recordsInvariant (unBondNodesFromStakingSC w a.arguments s1 []).1 :=
    recordsInvariant_of_eq (unBondSC_records w a.arguments s1 []) hs1
  have hup := @updateRegAfterUnBond_inv p
    (unBondNodesFromStakingSC w a.arguments s1 []).1 d
    (unBondNodesFromStakingSC w a.arguments s1 []).2 a.callerAddr hs2 hd
  split
  · exact hup
  · exact hup

lemma unBondTokensMatch_inv {p : SCParams} {w : World} {s : EEIState}
    {d : ValidatorDataV2} (hs : recordsInvariant s)
    (hd : unstakedSumInvariant d) (v : Int) (c r : Bytes) :
    recordsInvariant (match unBondTokensFromRegistrationData p w s d v with
      | (s, .error rc) => (s, rc)
      | (s, .ok (totalUnBond, d)) =>
        if totalUnBond = 0 then
          (addReturnMessage s "no tokens that can be unbond at this time", ReturnCode.Ok)
        else
          (saveRegistrationData (doTransfer s c r totalUnBond) c d,
           ReturnCode.Ok)).1 := by
  have hu := unBondTokensData_inv (p := p) (w := w) (s := s) (v := v) hd
  split
  · rename_i s3 rc heq3
    rw [heq3] at hu
    exact recordsInvariant_of_eq hu.1 hs
  rename_i s3 t d3 heq3
  rw [heq3] at hu
  have hs3 : recordsInvariant s3 := recordsInvariant_of_eq hu.1 hs
  split
  · exact hs3
  · exact save_inv hs3 (hu.2 t d3 rfl)

lemma unBondTokens_inv {p : SCParams} {w : World} {s : EEIState}
    {a : ContractCallInput} (hs : recordsInvariant s) :
    recordsInvariant (unBondTokens p w s a).1 := by
  have hb := basicCheckForUnStakeUnBond_inv (p := p) (a := a) hs
  simp only [unBondTokens]
  split
  · rename_i s1 rc heq
    rw [heq] at hb
    exact recordsInvariant_of_eq hb.1 hs
  rename_i s1 d heq
  rw [heq] at hb
  have hs1 : recordsInvariant s1 := recordsInvariant_of_eq hb.1 hs
  have hd : unstakedSumInvariant d := hb.2 d rfl
  split
  · exact hs1
  split
  · exact hs1
  rename_i s2 heq2
  have hs2 := recordsInvariant_of_eq (useGas_some heq2) hs1
  split
  · exact hs2
  split
  all_goals (split <;> first
    | exact hs2
    | exact unBondTokensMatch_inv hs2 hd _ _ _)

lemma cleanRegisteredData_inv {p : SCParams} {s : EEIState}
    {a : ContractCallInput} (hs : recordsInvariant s) :
    recordsInvariant (cleanRegisteredData p s a).1 := by
  simp only [cleanRegisteredData]
  split
  · exact hs
  split
  · exact hs
  rename_i s2 heq
  have hs2 := recordsInvariant_of_eq (useGas_some heq) hs
  split
  · exact hs2
  split
  · exact hs2
  split
  · exact hs2
  split
  · exact hs2
  · refine save_inv hs2 ?_
    have := getOrCreate_inv hs2 a.callerAddr
    simpa [unstakedSumInvariant] using this

lemma updateStakeValue_inv {w : World} {s : EEIState} {d : ValidatorDataV2}
    {caller : Bytes} (hs : recordsInvariant s) (hd : unstakedSumInvariant d) :
    recordsInvariant (updateStakeValue w s d caller).1 := by
  simp only [updateStakeValue]
  split
  · exact hs
  · refine save_inv hs ?_
    split
    · simpa [unstakedSumInvariant] using hd
    · exact hd

lemma stakeTail_inv {p : SCParams} {w : World} {s3 : EEIState}
    {dm : ValidatorDataV2} {b : Bool} {caller : Bytes} {args : List Bytes}
    {cfgPrice : Int} {drop0 : List Bytes}
    (hs3 : recordsInvariant s3) (hdm : unstakedSumInvariant dm) :
    recordsInvariant
      ((match registerBLSKeys w s3 dm caller caller args with
        | (s, _, .error e) =>
          (addReturnMessage s ("cannot register bls key: error " ++ e), ReturnCode.UserError)
        | (s, d, .ok blsKeys) =>
          if p.flagDoubleKey ∧ checkDoubleBLSKeys blsKeys then
            (addReturnMessage s "invalid arguments, found same bls key twice",
             ReturnCode.UserError)
          else
            let numQualified := Int.ediv d.totalStakeValue cfgPrice
            if numQualified.toNat % 2 ^ 64 < d.blsPubKeys.length then
              (addReturnMessage s "insufficient funds", ReturnCode.OutOfFunds)
            else
              let ro := stakeOptionsLoop p b drop0 s d
              let ra := activateStakingFor w ro.1 ro.2 blsKeys
                (numQualified.toNat % 2 ^ 64) cfgPrice ro.2.rewardAddress caller
              (saveRegistrationData ra.1 caller ra.2, ReturnCode.Ok)).1) := by
  rcases hrb : registerBLSKeys w s3 dm caller caller args with ⟨s4, d4, res⟩
  have hre := registerBLSKeys_effects w s3 dm caller caller args
  rw [hrb] at hre
  cases res with
  | error e =>
    refine recordsInvariant_of_eq ?_ hs3
    exact hre.1
  | ok blsKeys =>
    dsimp only
    have hs4 : recordsInvariant s4 := by
      refine recordsInvariant_of_eq ?_ hs3
      exact hre.1
    split
    · exact hs4
    split
    · exact hs4
    · have hso := stakeOptionsLoop_effects p b drop0 s4 d4
      refine save_inv ?_ ?_
      · refine recordsInvariant_of_eq ?_ hs4
        exact (activateLoop_records w _ _ _ _ _ _).trans hso.1
      · simp only [unstakedSumInvariant, activateStakingFor]
        rw [hso.2.1, hso.2.2, hre.2.1, hre.2.2]
        exact hdm

lemma stake_inv {p : SCParams} {w : World} {s : EEIState}
    {a : ContractCallInput} (hs : recordsInvariant s) :
    recordsInvariant (stake p w s a).1 := by
  simp only [stake]
  split
  · exact hs
  rename_i s2 heq
  have hs2 := recordsInvariant_of_eq (useGas_some heq) hs
  split
  · exact hs2
  split
  · exact hs2
  split
  · refine updateStakeValue_inv hs2 ?_
    have := getOrCreate_inv hs2 a.callerAddr
    simpa [unstakedSumInvariant] using this
  split
  · exact hs2
  split
  · exact hs2
  split
  · exact hs2
  rename_i s3 heq3
  have hs3 := recordsInvariant_of_eq (useGas_some heq3) hs2
  refine stakeTail_inv hs3 ?_
  have h0 := getOrCreate_inv hs2 a.callerAddr
  split
  all_goals simpa [unstakedSumInvariant] using h0

/-- **C6.** After every handler call that returns `Ok` on a state whose
stored records all satisfy `TotalUnstaked = Σ UnstakedInfo[i].value`, the
resulting state's records all satisfy it again: `processUnStakeValue` raises
both sides together, `unBondTokensFromRegistrationData` lowers both together,
and every other save leaves the two fields untouched (the preservation in
fact holds for every return code). -/
theorem C6_unstaked_sum_invariant (p : SCParams) (w : World) (s : EEIState)
    (a : ContractCallInput)
    (hs : recordsInvariant s)
    (hOk : (execute p w s a).2 = .Ok) :
    recordsInvariant (execute p w s a).1 := by
  by_cases h1 : a.function = "_init"
  · simp only [execute, if_pos h1]
    exact init_inv hs
  by_cases h2 : a.function = "stake"
  · simp only [execute, if_neg h1, if_pos h2]
    exact stake_inv hs
  by_cases h3 : a.function = "unStake"
  · simp only [execute, if_neg h1, if_neg h2, if_pos h3]
    exact unStake_inv hs
  by_cases h4 : a.function = "unStakeNodes"
  · simp only [execute, if_neg h1, if_neg h2, if_neg h3, if_pos h4]
    exact unStakeNodes_inv hs
  by_cases h5 : a.function = "unStakeTokens"
  · simp only [execute, if_neg h1, if_neg h2, if_neg h3, if_neg h4, if_pos h5]
    exact unStakeTokens_inv hs
  by_cases h6 : a.function = "unBond"
  · simp only [execute, if_neg h1, if_neg h2, if_neg h3, if_neg h4, if_neg h5, if_pos h6]
    exact unBond_inv hs
  by_cases h7 : a.function = "unBondNodes"
  · simp only [execute, if_neg h1, if_neg h2, if_neg h3, if_neg h4, if_neg h5, if_neg h6, if_pos h7]
    exact unBondNodes_inv hs
  by_cases h8 : a.function = "unBondTokens"
  · simp only [execute, if_neg h1, if_neg h2, if_neg h3, if_neg h4, if_neg h5, if_neg h6, if_neg h7, if_pos h8]
    exact unBondTokens_inv hs
  by_cases h9 : a.function = "claim"
  · simp only [execute, if_neg h1, if_neg h2, if_neg h3, if_neg h4, if_neg h5, if_neg h6, if_neg h7, if_neg h8, if_pos h9]
    exact claim_inv hs
  by_cases h10 : a.function = "get"
  · simp only [execute, if_neg h1, if_neg h2, if_neg h3, if_neg h4, if_neg h5, if_neg h6, if_neg h7, if_neg h8, if_neg h9, if_pos h10]
    exact get_inv hs
  by_cases h11 : a.function = "setConfig"
  · simp only [execute, if_neg h1, if_neg h2, if_neg h3, if_neg h4, if_neg h5, if_neg h6, if_neg h7, if_neg h8, if_neg h9, if_neg h10, if_pos h11]
    exact setConfig_inv hs
  by_cases h12 : a.function = "changeRewardAddress"
  · simp only [execute, if_neg h1, if_neg h2, if_neg h3, if_neg h4, if_neg h5, if_neg h6, if_neg h7, if_neg h8, if_neg h9, if_neg h10, if_neg h11, if_pos h12]
    exact changeRewardAddress_inv hs
  by_cases h13 : a.function = "unJail"
  · simp only [execute, if_neg h1, if_neg h2, if_neg h3, if_neg h4, if_neg h5, if_neg h6, if_neg h7, if_neg h8, if_neg h9, if_neg h10, if_neg h11, if_neg h12, if_pos h13]
    exact unJail_inv hs
  by_cases h14 : a.function = "getTotalStaked"
  · simp only [execute, if_neg h1, if_neg h2, if_neg h3, if_neg h4, if_neg h5, if_neg h6, if_neg h7, if_neg h8, if_neg h9, if_neg h10, if_neg h11, if_neg h12, if_neg h13, if_pos h14]
    exact getTotalStaked_inv hs
  by_cases h15 : a.function = "getTotalStakedTopUpBlsKeys"
  · simp only [execute, if_neg h1, if_neg h2, if_neg h3, if_neg h4, if_neg h5, if_neg h6, if_neg h7, if_neg h8, if_neg h9, if_neg h10, if_neg h11, if_neg h12, if_neg h13, if_neg h14, if_pos h15]
    exact getTotalStakedTopUp_inv hs
  by_cases h16 : a.function = "getBlsKeysStatus"
  · simp only [execute, if_neg h1, if_neg h2, if_neg h3, if_neg h4, if_neg h5, if_neg h6, if_neg h7, if_neg h8, if_neg h9, if_neg h10, if_neg h11, if_neg h12, if_neg h13, if_neg h14, if_neg h15, if_pos h16]
    exact getBlsKeysStatus_inv hs
  by_cases h17 : a.function = "updateStakingV2"
  · simp only [execute, if_neg h1, if_neg h2, if_neg h3, if_neg h4, if_neg h5, if_neg h6, if_neg h7, if_neg h8, if_neg h9, if_neg h10, if_neg h11, if_neg h12, if_neg h13, if_neg h14, if_neg h15, if_neg h16, if_pos h17]
    exact updateStakingV2_inv hs
  by_cases h18 : a.function = "cleanRegisteredData"
  · simp only [execute, if_neg h1, if_neg h2, if_neg h3, if_neg h4, if_neg h5, if_neg h6, if_neg h7, if_neg h8, if_neg h9, if_neg h10, if_neg h11, if_neg h12, if_neg h13, if_neg h14, if_neg h15, if_neg h16, if_neg h17, if_pos h18]
    exact cleanRegisteredData_inv hs
  by_cases h19 : a.function = "pauseUnStakeUnBond"
  · simp only [execute, if_neg h1, if_neg h2, if_neg h3, if_neg h4, if_neg h5, if_neg h6, if_neg h7, if_neg h8, if_neg h9, if_neg h10, if_neg h11, if_neg h12, if_neg h13, if_neg h14, if_neg h15, if_neg h16, if_neg h17, if_neg h18, if_pos h19]
    exact pause_inv hs
  by_cases h20 : a.function = "unPauseUnStakeUnBond"
  · simp only [execute, if_neg h1, if_neg h2, if_neg h3, if_neg h4, if_neg h5, if_neg h6, if_neg h7, if_neg h8, if_neg h9, if_neg h10, if_neg h11, if_neg h12, if_neg h13, if_neg h14, if_neg h15, if_neg h16, if_neg h17, if_neg h18, if_neg h19, if_pos h20]
    exact unpause_inv hs
  · simp only [execute, if_neg h1, if_neg h2, if_neg h3, if_neg h4, if_neg h5, if_neg h6, if_neg h7, if_neg h8, if_neg h9, if_neg h10, if_neg h11, if_neg h12, if_neg h13, if_neg h14, if_neg h15, if_neg h16, if_neg h17, if_neg h18, if_neg h19, if_neg h20]
    exact hs

/-- Witness for C6: a concrete `unStakeTokens(2000)` call (which moves 2000
into a fresh `UnstakedInfo` entry) keeps the invariant. -/
theorem C6_unstaked_sum_invariant_witness :
    recordsInvariant
      (execute testParams (worldAt 100) (stateWith [7, 7] recC2) callUnstk2000).1 :=
  C6_unstaked_sum_invariant testParams (worldAt 100) (stateWith [7, 7] recC2)
    callUnstk2000
    (by
      intro addr d h
      simp only [stateWith, emptyState] at h
      split at h
      · cases h
        show recC2.totalUnstaked = sumUnstaked recC2.unstakedInfo
        decide
      · simp at h)
    (by decide)

end ValidatorSC





